import Mathlib

/-!
Verification of the suno-batch-generator job engine.

Shallow embedding of the TypeScript sources:
- `src/background/queue-coordinator.ts` (queue state, run loop, persistence, restore)
- `src/content/selectors-runtime.ts` and `src/content/dom-utils.ts` (element resolver)
- `src/content/generation-monitor.ts` (generation completion monitor)
- `src/content/suno-automation.ts` and the content-script message handler (job execution)
- the API download path (`pollForCompletion`, `downloadSongViaAPI`)

Conventions used throughout:
- JS numbers that hold counts, ids and times are modeled as `Nat`.
- `Date.now()` is modeled by a monotone counter; job ids, generated in the
  source as the string `Date.now() + "-" + i`, are modeled as consecutive
  numbers drawn from that counter (fresh across calls, distinct within a call).
- Fallible code returns `Option`/`Except`; a thrown JS `Error` is an
  `Except.error` carrying the message.
-/

namespace SunoBatch

/-- Job lifecycle statuses, from `src/types/job.ts` (used by the queue UI and
coordinator): pending, filling, creating, waiting, downloading, completed,
failed, skipped. -/
inductive JobStatus where
  | pending
  | filling
  | creating
  | waiting
  | downloading
  | completed
  | failed
  | skipped
deriving DecidableEq, Repr

/-- One song request, from `SongInput` (title, style, lyrics, instrumental,
optional per-job download folder). -/
structure SongInput where
  title : String
  style : String
  lyrics : String
  instrumental : Bool
  downloadFolder : Option String
deriving DecidableEq, Repr

/-- A queued job, from `Job` in `src/types/job.ts`:
`{id, input, status, error?, retryCount, createdAt, updatedAt}`. -/
structure Job where
  id : Nat
  input : SongInput
  status : JobStatus
  error : Option String
  retryCount : Nat
  createdAt : Nat
  updatedAt : Nat
deriving DecidableEq, Repr

/-- The queue state owned by the coordinator:
`{ jobs: Job[], running: boolean, currentJobId: string | null }`. -/
structure QueueState where
  jobs : List Job
  running : Bool
  currentJobId : Option Nat
deriving DecidableEq, Repr

/-- The audio format requested for downloads (`settings.downloadFormat`). -/
inductive DownloadFormat where
  | mp3
  | wav
deriving DecidableEq, Repr

/-- Extension settings, from `Settings` in `src/types/messages.ts`. -/
structure Settings where
  delayBetweenSongs : Nat
  generationTimeout : Nat
  maxRetries : Nat
  downloadPath : String
  downloadFormat : DownloadFormat
deriving DecidableEq, Repr

/-- `DEFAULT_DELAY_BETWEEN_SONGS` from `src/config/constants.ts`. -/
def DEFAULT_DELAY_BETWEEN_SONGS : Nat := 5000

/-- `DEFAULT_GENERATION_TIMEOUT` from `src/config/constants.ts`. -/
def DEFAULT_GENERATION_TIMEOUT : Nat := 300000

/-- `DEFAULT_MAX_RETRIES` from `src/config/constants.ts`. -/
def DEFAULT_MAX_RETRIES : Nat := 3

/-- `GENERATION_POLL_INTERVAL` from `src/config/constants.ts`. -/
def GENERATION_POLL_INTERVAL : Nat := 3000

/-- The default settings object initialized in `queue-coordinator.ts`. -/
def defaultSettings : Settings :=
  { delayBetweenSongs := DEFAULT_DELAY_BETWEEN_SONGS
    generationTimeout := DEFAULT_GENERATION_TIMEOUT
    maxRetries := DEFAULT_MAX_RETRIES
    downloadPath := "SunoMusic"
    downloadFormat := .mp3 }

/-- The in-progress statuses reset by `restoreState`:
`["filling", "creating", "waiting", "downloading"]`. -/
def inProgressStatuses : List JobStatus :=
  [.filling, .creating, .waiting, .downloading]

/-- A job status counts as in-progress when it is one of
filling/creating/waiting/downloading. -/
def isInProgress (s : JobStatus) : Bool := s ∈ inProgressStatuses

/-- `restoreState` applied to one stored job: any in-progress job is reset
back to pending, everything else is kept as stored
(`queue-coordinator.ts`, lines 344-349). -/
def restoreJob (j : Job) : Job :=
  if isInProgress j.status then { j with status := .pending } else j

/-- `restoreState` on a present stored queue snapshot
(`queue-coordinator.ts`, lines 338-351): reset `running` and `currentJobId`,
and map every in-progress job back to pending. -/
def restoreState (persisted : QueueState) : QueueState :=
  { jobs := persisted.jobs.map restoreJob
    running := false
    currentJobId := none }

theorem restoreJob_id (j : Job) : (restoreJob j).id = j.id := by
  unfold restoreJob; split <;> rfl

theorem restoreJob_fields (j : Job) :
    (restoreJob j).id = j.id ∧ (restoreJob j).input = j.input ∧
    (restoreJob j).error = j.error ∧ (restoreJob j).retryCount = j.retryCount ∧
    (restoreJob j).createdAt = j.createdAt ∧ (restoreJob j).updatedAt = j.updatedAt := by
  unfold restoreJob; split <;> exact ⟨rfl, rfl, rfl, rfl, rfl, rfl⟩

theorem restoreJob_status (j : Job) :
    (isInProgress j.status = true → (restoreJob j).status = .pending) ∧
    (isInProgress j.status = false → (restoreJob j).status = j.status) := by
  unfold restoreJob
  constructor
  · intro h; simp [h]
  · intro h; simp [h]

/-- C3: restoring a persisted queue state yields `running = false`,
`currentJobId = null`, every job whose stored status was in-progress
(filling/creating/waiting/downloading) reset to pending, and all other job
fields and statuses unchanged. -/
theorem restoreState_spec (p : QueueState) :
    (restoreState p).running = false ∧
    (restoreState p).currentJobId = none ∧
    (restoreState p).jobs.length = p.jobs.length ∧
    ∀ i : Nat, ∀ h : i < p.jobs.length,
      let j := p.jobs.get ⟨i, h⟩
      let hr : i < (restoreState p).jobs.length := by
        simpa [restoreState] using h
      let j2 := (restoreState p).jobs.get ⟨i, hr⟩
      j2.id = j.id ∧ j2.input = j.input ∧ j2.error = j.error ∧
      j2.retryCount = j.retryCount ∧ j2.createdAt = j.createdAt ∧
      j2.updatedAt = j.updatedAt ∧
      (isInProgress j.status = true → j2.status = .pending) ∧
      (isInProgress j.status = false → j2.status = j.status) := by
  refine ⟨rfl, rfl, by simp [restoreState], ?_⟩
  intro i h
  have hget : ∀ hr : i < (restoreState p).jobs.length,
      (restoreState p).jobs.get ⟨i, hr⟩ = restoreJob (p.jobs.get ⟨i, h⟩) := by
    intro hr
    simp [restoreState]
  simp only
  rw [hget]
  exact ⟨restoreJob_id _, (restoreJob_fields _).2.1, (restoreJob_fields _).2.2.1,
    (restoreJob_fields _).2.2.2.1, (restoreJob_fields _).2.2.2.2.1,
    (restoreJob_fields _).2.2.2.2.2, (restoreJob_status _).1, (restoreJob_status _).2⟩

/-- A sample persisted snapshot: one job stuck in `waiting`, one `completed`,
with `running = true` as a service worker crash would leave it. -/
def samplePersisted : QueueState :=
  { jobs :=
      [ { id := 0
          input := { title := "A", style := "pop", lyrics := "la", instrumental := false,
                     downloadFolder := none }
          status := .waiting, error := none, retryCount := 1, createdAt := 10, updatedAt := 20 }
      , { id := 1
          input := { title := "B", style := "rock", lyrics := "lo", instrumental := true,
                     downloadFolder := some "f" }
          status := .completed, error := none, retryCount := 0, createdAt := 11, updatedAt := 30 } ]
    running := true
    currentJobId := some 0 }

/-- Witness for C3 on a concrete snapshot: the stuck `waiting` job comes back
as `pending` with its retry count kept, the `completed` one is untouched, and
the restored state is not running. -/
theorem restoreState_spec_witness :
    (restoreState samplePersisted).running = false ∧
    (restoreState samplePersisted).currentJobId = none ∧
    ((restoreState samplePersisted).jobs.get ⟨0, by decide⟩).status = .pending ∧
    ((restoreState samplePersisted).jobs.get ⟨0, by decide⟩).retryCount = 1 ∧
    ((restoreState samplePersisted).jobs.get ⟨1, by decide⟩).status = .completed := by
  have h := restoreState_spec samplePersisted
  refine ⟨h.1, h.2.1, ?_, ?_, ?_⟩
  · exact (h.2.2.2 0 (by decide)).2.2.2.2.2.2.1 (by decide)
  · exact ((h.2.2.2 0 (by decide)).2.2.2.1).trans rfl
  · exact ((h.2.2.2 1 (by decide)).2.2.2.2.2.2.2 (by decide)).trans rfl

/-! ## Queue coordinator model

`src/background/queue-coordinator.ts` keeps module-level mutable state
(`state`, `loopActive`) plus the persisted snapshot under `STORAGE_KEY_QUEUE`.
All mutation happens on the single extension event loop; each atomic mutation
block of the source (no `await` inside) is modeled as one event. The run loop
`runLoop` suspends at its `await`s, so its successive mutations interleave
with message handlers; they appear here as separate `loop*` events. -/

/-- Log levels accepted by `emitLog`. -/
inductive LogLevel where
  | info
  | warn
  | error
deriving DecidableEq, Repr

/-- Statuses a `JOB_PROGRESS` message can carry: the content script reports
filling/creating/waiting/downloading/completed via `onProgress`, and `failed`
from the `handleExecuteJob` catch block. It never reports pending or skipped. -/
inductive ProgressStatus where
  | filling
  | creating
  | waiting
  | downloading
  | completed
  | failed
deriving DecidableEq, Repr

/-- The job status written by a progress update. -/
def ProgressStatus.toStatus : ProgressStatus → JobStatus
  | .filling => .filling
  | .creating => .creating
  | .waiting => .waiting
  | .downloading => .downloading
  | .completed => .completed
  | .failed => .failed

/-- A `Partial<Job>` object as passed to `updateJob(id, updates)`. A `some`
field is present in the object literal and overwrites the job field (note the
source spreads `{ ...j, ...updates }`, so a present-but-undefined `error`
still overwrites: that case is `error := some none`). -/
structure JobUpdate where
  status : Option JobStatus := none
  error : Option (Option String) := none
  retryCount : Option Nat := none
deriving DecidableEq, Repr

/-- `{ ...j, ...updates, updatedAt: Date.now() }` from `updateJob`. -/
def applyUpdate (u : JobUpdate) (now : Nat) (j : Job) : Job :=
  { j with
    status := u.status.getD j.status
    error := u.error.getD j.error
    retryCount := u.retryCount.getD j.retryCount
    updatedAt := now }

/-- The coordinator module state: the live `QueueState`, the snapshot written
by `persistState()` to `chrome.storage.local`, the `loopActive` flag, a
monotone counter modelling `Date.now()` (also the source of fresh job ids),
and the stream of `emitLog` entries. -/
structure CoordState where
  q : QueueState
  persisted : QueueState
  loopActive : Bool
  nextId : Nat
  now : Nat
  logs : List (LogLevel × String)
deriving DecidableEq, Repr

/-- The jobs created by `addJobs`: ids `Date.now() + "-" + i` are modeled as
consecutive fresh numbers; status pending, retryCount 0, both timestamps now. -/
def mkJobs (idBase now : Nat) : List SongInput → List Job
  | [] => []
  | inp :: rest =>
    { id := idBase, input := inp, status := .pending, error := none,
      retryCount := 0, createdAt := now, updatedAt := now } :: mkJobs (idBase + 1) now rest

/-- `state.jobs.find(j => j.status === "pending")` from `runLoop`. -/
def firstPending (jobs : List Job) : Option Job :=
  jobs.find? (fun j => j.status == .pending)

/-- `state.jobs.find(j => j.id === id)`. -/
def findJob (s : CoordState) (id : Nat) : Option Job :=
  s.q.jobs.find? (fun j => j.id == id)

/-- The map in `updateJob`: every job with the given id gets the updates
applied and `updatedAt` refreshed. -/
def updateJobs (now id : Nat) (u : JobUpdate) (jobs : List Job) : List Job :=
  jobs.map fun j => if j.id == id then applyUpdate u now j else j

/-- `updateJob(id, updates)` from the coordinator: rewrite the job list, then
`broadcastState(); persistState()`, so the persisted snapshot equals the new
live state. -/
def updateJob (s : CoordState) (id : Nat) (u : JobUpdate) : CoordState :=
  { s with
    q := { s.q with jobs := updateJobs s.now id u s.q.jobs }
    persisted := { s.q with jobs := updateJobs s.now id u s.q.jobs } }

/-- `emitLog(level, msg)`. -/
def addLog (s : CoordState) (lv : LogLevel) (msg : String) : CoordState :=
  { s with logs := s.logs ++ [(lv, msg)] }

/-- Time passes across events (the model never needs real durations, only
monotonicity of `Date.now()`). -/
def tick (s : CoordState) : CoordState := { s with now := s.now + 1 }

/-- The error log emitted by `runLoop` when `checkPageWithRetry` fails. -/
def pageFailLogMsg : String :=
  "Not on suno.com/create page. Queue paused — navigate to suno.com/create and press Start again."

/-- The atomic coordinator mutations, one per mutation block of the source:
`addJobs`, `clearQueue`, `startQueue`, `stopQueue`, the three `runLoop`
blocks (queue finished, job picked, page-check failure), the `filling` mark,
a `JOB_PROGRESS` listener update, the no-retry fall-through after a failed
execution (which mutates nothing), and the retry requeue. -/
inductive CoordEvent where
  | addJobs (inputs : List SongInput)
  | clearQueue
  | startQueue
  | stopQueue
  | loopNoPending
  | loopPick
  | loopPageFail
  | markFilling (id : Nat)
  | progressUpdate (id : Nat) (ps : ProgressStatus) (err : Option String)
  | execFailNoRetry (id : Nat)
  | retryRequeue (id : Nat)
deriving DecidableEq, Repr

/-- One coordinator event, with the guard the source checks immediately
before the mutation; `none` when the guard fails and the source would not
perform this mutation. -/
def stepEvent (ms : Settings) (s : CoordState) : CoordEvent → Option CoordState
  | .addJobs inputs =>
    let q := { s.q with jobs := s.q.jobs ++ mkJobs s.nextId s.now inputs }
    some (tick (addLog { s with q := q, persisted := q, nextId := s.nextId + inputs.length }
      .info ("Added " ++ toString inputs.length ++ " song(s) to queue")))
  | .clearQueue =>
    let q : QueueState := { jobs := [], running := false, currentJobId := none }
    some (tick (addLog { s with q := q, persisted := q, loopActive := false }
      .info "Queue cleared"))
  | .startQueue =>
    if s.loopActive then none
    else
      let q := { s.q with running := true }
      some (tick (addLog { s with q := q, loopActive := true } .info "Queue started"))
  | .stopQueue =>
    let q := { s.q with running := false, currentJobId := none }
    some (tick (addLog { s with q := q, persisted := q, loopActive := false }
      .info "Queue stopped"))
  | .loopNoPending =>
    if s.loopActive then
      match firstPending s.q.jobs with
      | none =>
        let q := { s.q with running := false, currentJobId := none }
        some (tick (addLog { s with q := q, persisted := q, loopActive := false }
          .info "All jobs processed. Queue finished."))
      | some _ => none
    else none
  | .loopPick =>
    if s.loopActive then
      match firstPending s.q.jobs with
      | some j =>
        let q := { s.q with currentJobId := some j.id }
        some (tick (addLog { s with q := q } .info ("Processing: " ++ j.input.title)))
      | none => none
    else none
  | .loopPageFail =>
    if s.loopActive then
      let q := { s.q with running := false, currentJobId := none }
      some (tick (addLog { s with q := q, persisted := q, loopActive := false }
        .error pageFailLogMsg))
    else none
  | .markFilling id =>
    if s.loopActive then some (tick (updateJob s id { status := some .filling })) else none
  | .progressUpdate id ps err =>
    let title := ((findJob s id).map (fun j => j.input.title)).getD ""
    let s1 := updateJob s id { status := some ps.toStatus, error := some err }
    match ps with
    | .completed => some (tick (addLog s1 .info ("Completed: " ++ title)))
    | .failed =>
      some (tick (addLog s1 .error ("Failed: " ++ title ++ " - " ++ err.getD "undefined")))
    | _ => some (tick s1)
  | .execFailNoRetry id =>
    let r := ((findJob s id).map Job.retryCount).getD 0
    if ms.maxRetries ≤ r then some (tick s) else none
  | .retryRequeue id =>
    let r := ((findJob s id).map Job.retryCount).getD 0
    if r < ms.maxRetries then
      let title := ((findJob s id).map (fun j => j.input.title)).getD ""
      some (tick (addLog (updateJob s id { status := some .pending, retryCount := some (r + 1) })
        .warn ("Retrying " ++ title ++ " (attempt " ++ toString (r + 2) ++ "/" ++
          toString (ms.maxRetries + 1) ++ ")")))
    else none

/-- The module initial state: empty queue, not running, nothing persisted yet
(modeled as the same empty snapshot). -/
def initState : CoordState :=
  { q := { jobs := [], running := false, currentJobId := none }
    persisted := { jobs := [], running := false, currentJobId := none }
    loopActive := false
    nextId := 0
    now := 0
    logs := [] }

/-- Run a sequence of events; an event whose guard fails leaves the state
unchanged (the source simply does not reach that mutation). -/
def runEvents (ms : Settings) : CoordState → List CoordEvent → CoordState
  | s, [] => s
  | s, e :: es => runEvents ms ((stepEvent ms s e).getD s) es

/-! ### Structural lemmas about the coordinator model -/

theorem applyUpdate_id (u : JobUpdate) (now : Nat) (j : Job) :
    (applyUpdate u now j).id = j.id := rfl

theorem mkJobs_mem : ∀ (l : List SongInput) (b n : Nat) (j : Job), j ∈ mkJobs b n l →
    b ≤ j.id ∧ j.id < b + l.length ∧ j.status = .pending ∧ j.retryCount = 0 := by
  intro l
  induction l with
  | nil => intro b n j h; simp [mkJobs] at h
  | cons inp rest ih =>
    intro b n j h
    simp only [mkJobs, List.mem_cons] at h
    rcases h with h | h
    · subst h; refine ⟨Nat.le_refl _, ?_, rfl, rfl⟩
      simp only [List.length_cons]
      omega
    · rcases ih (b + 1) n j h with ⟨h1, h2, h3, h4⟩
      refine ⟨by omega, ?_, h3, h4⟩
      simp only [List.length_cons]
      omega

theorem mkJobs_ids_nodup : ∀ (l : List SongInput) (b n : Nat),
    ((mkJobs b n l).map Job.id).Nodup := by
  intro l
  induction l with
  | nil => intro b n; simp [mkJobs]
  | cons inp rest ih =>
    intro b n
    simp only [mkJobs, List.map_cons, List.nodup_cons]
    refine ⟨?_, ih (b + 1) n⟩
    intro hmem
    rcases List.mem_map.mp hmem with ⟨j, hj, hid⟩
    have := mkJobs_mem rest (b + 1) n j hj
    omega

theorem updateJobs_ids (now id : Nat) (u : JobUpdate) (jobs : List Job) :
    (updateJobs now id u jobs).map Job.id = jobs.map Job.id := by
  induction jobs with
  | nil => rfl
  | cons j rest ih =>
    simp only [updateJobs, List.map_cons] at ih ⊢
    rw [ih]
    by_cases hc : (j.id == id) = true <;> simp [hc, applyUpdate]

theorem mem_updateJobs {now id : Nat} {u : JobUpdate} {jobs : List Job} {j2 : Job}
    (h : j2 ∈ updateJobs now id u jobs) :
    ∃ j ∈ jobs, (j2 = j ∧ (j.id == id) = false) ∨ (j2 = applyUpdate u now j ∧ (j.id == id) = true) := by
  rcases List.mem_map.mp h with ⟨j, hj, heq⟩
  refine ⟨j, hj, ?_⟩
  by_cases hc : (j.id == id) = true
  · right
    exact ⟨by rw [← heq, if_pos hc], hc⟩
  · left
    refine ⟨by rw [← heq, if_neg hc], ?_⟩
    simpa using hc

theorem find?_updateJobs_same (now id : Nat) (u : JobUpdate) (jobs : List Job) :
    (updateJobs now id u jobs).find? (fun j => j.id == id) =
      (jobs.find? (fun j => j.id == id)).map (applyUpdate u now) := by
  induction jobs with
  | nil => rfl
  | cons j rest ih =>
    simp only [updateJobs, List.map_cons] at ih ⊢
    by_cases hc : (j.id == id) = true
    · have h1 : ((applyUpdate u now j).id == id) = true := hc
      rw [if_pos hc]
      simp [List.find?_cons, h1, hc]
    · have hcb : (j.id == id) = false := by simpa using hc
      rw [if_neg hc]
      simp only [List.find?_cons, hcb]
      exact ih

/-- The well-formedness invariant of the coordinator state: job ids are
pairwise distinct and bounded by the id counter, and (the C1 payload) every
retry count is within the configured maximum. -/
def WellFormed (ms : Settings) (s : CoordState) : Prop :=
  (s.q.jobs.map Job.id).Nodup ∧
  (∀ j ∈ s.q.jobs, j.id < s.nextId) ∧
  (∀ j ∈ s.q.jobs, j.retryCount ≤ ms.maxRetries)

theorem wellFormed_init (ms : Settings) : WellFormed ms initState := by
  refine ⟨by simp [initState], ?_, ?_⟩ <;> intro j hj <;> simp [initState] at hj

theorem wellFormed_updateJob (ms : Settings) (s : CoordState) (id : Nat) (u : JobUpdate)
    (hwf : WellFormed ms s)
    (hretry : ∀ j ∈ s.q.jobs, (u.retryCount.getD j.retryCount) ≤ ms.maxRetries) :
    WellFormed ms (updateJob s id u) := by
  obtain ⟨hnd, hbound, hr⟩ := hwf
  refine ⟨?_, ?_, ?_⟩
  · show ((updateJobs s.now id u s.q.jobs).map Job.id).Nodup
    rw [updateJobs_ids]; exact hnd
  · intro j2 hj2
    rcases mem_updateJobs hj2 with ⟨j, hj, hcase⟩
    rcases hcase with ⟨rfl, h2⟩ | ⟨rfl, h2⟩
    · exact hbound _ hj
    · rw [applyUpdate_id]; exact hbound _ hj
  · intro j2 hj2
    rcases mem_updateJobs hj2 with ⟨j, hj, hcase⟩
    rcases hcase with ⟨rfl, h2⟩ | ⟨rfl, h2⟩
    · exact hr _ hj
    · exact hretry _ hj

/-- The queue-state invariant only looks at `q.jobs` and `nextId`; `tick` and
`addLog` touch neither. -/
theorem wellFormed_tick_addLog (ms : Settings) (s : CoordState) (lv : LogLevel) (msg : String) :
    WellFormed ms s → WellFormed ms (tick (addLog s lv msg)) := by
  intro h
  exact h

theorem wellFormed_step {ms : Settings} {s s2 : CoordState} {e : CoordEvent}
    (hwf : WellFormed ms s) (h : stepEvent ms s e = some s2) : WellFormed ms s2 := by
  obtain ⟨hnd, hbound, hr⟩ := hwf
  cases e with
  | addJobs inputs =>
    simp only [stepEvent, Option.some.injEq] at h
    subst h
    refine ⟨?_, ?_, ?_⟩
    · show ((s.q.jobs ++ mkJobs s.nextId s.now inputs).map Job.id).Nodup
      rw [List.map_append]
      rw [List.nodup_append]
      refine ⟨hnd, mkJobs_ids_nodup _ _ _, ?_⟩
      intro a ha hb
      rcases List.mem_map.mp ha with ⟨j, hj, rfl⟩
      rcases List.mem_map.mp hb with ⟨k, hk, hkj⟩
      have h1 := hbound j hj
      have h2 := (mkJobs_mem inputs s.nextId s.now k hk).1
      omega
    · intro j hj
      show j.id < s.nextId + inputs.length
      rcases List.mem_append.mp hj with hj | hj
      · have := hbound j hj; omega
      · exact (mkJobs_mem inputs s.nextId s.now j hj).2.1
    · intro j hj
      rcases List.mem_append.mp hj with hj | hj
      · exact hr j hj
      · rw [(mkJobs_mem inputs s.nextId s.now j hj).2.2.2]; exact Nat.zero_le _
  | clearQueue =>
    simp only [stepEvent, Option.some.injEq] at h
    subst h
    refine ⟨by simp [tick, addLog], ?_, ?_⟩ <;> intro j hj <;> simp [tick, addLog] at hj
  | startQueue =>
    simp only [stepEvent] at h
    split at h
    · exact Option.noConfusion h
    · simp only [Option.some.injEq] at h
      subst h
      exact ⟨hnd, hbound, hr⟩
  | stopQueue =>
    simp only [stepEvent, Option.some.injEq] at h
    subst h
    exact ⟨hnd, hbound, hr⟩
  | loopNoPending =>
    simp only [stepEvent] at h
    split at h
    · split at h
      · simp only [Option.some.injEq] at h
        subst h
        exact ⟨hnd, hbound, hr⟩
      · exact Option.noConfusion h
    · exact Option.noConfusion h
  | loopPick =>
    simp only [stepEvent] at h
    split at h
    · split at h
      · simp only [Option.some.injEq] at h
        subst h
        exact ⟨hnd, hbound, hr⟩
      · exact Option.noConfusion h
    · exact Option.noConfusion h
  | loopPageFail =>
    simp only [stepEvent] at h
    split at h
    · simp only [Option.some.injEq] at h
      subst h
      exact ⟨hnd, hbound, hr⟩
    · exact Option.noConfusion h
  | markFilling id =>
    simp only [stepEvent] at h
    split at h
    · simp only [Option.some.injEq] at h
      subst h
      exact wellFormed_updateJob ms s id _ ⟨hnd, hbound, hr⟩ (fun j hj => hr j hj)
    · exact Option.noConfusion h
  | progressUpdate id ps err =>
    have hwf2 := wellFormed_updateJob ms s id
      { status := some ps.toStatus, error := some err } ⟨hnd, hbound, hr⟩
      (fun j hj => hr j hj)
    cases ps <;> simp only [stepEvent, Option.some.injEq] at h <;> subst h <;> exact hwf2
  | execFailNoRetry id =>
    simp only [stepEvent] at h
    split at h
    · simp only [Option.some.injEq] at h
      subst h
      exact ⟨hnd, hbound, hr⟩
    · exact Option.noConfusion h
  | retryRequeue id =>
    simp only [stepEvent] at h
    split at h
    case isTrue hc =>
      simp only [Option.some.injEq] at h
      subst h
      exact wellFormed_updateJob ms s id _ ⟨hnd, hbound, hr⟩ (fun j hj => by
        show ((findJob s id).map Job.retryCount).getD 0 + 1 ≤ ms.maxRetries
        omega)
    case isFalse => exact Option.noConfusion h

theorem wellFormed_runEvents (ms : Settings) :
    ∀ (tr : List CoordEvent) (s : CoordState), WellFormed ms s →
      WellFormed ms (runEvents ms s tr) := by
  intro tr
  induction tr with
  | nil => intro s hwf; exact hwf
  | cons e es ih =>
    intro s hwf
    show WellFormed ms (runEvents ms ((stepEvent ms s e).getD s) es)
    refine ih _ ?_
    cases hst : stepEvent ms s e with
    | none => simpa using hwf
    | some s2 => simpa using wellFormed_step hwf hst

theorem eq_of_mem_ids_nodup {jobs : List Job} (hnd : (jobs.map Job.id).Nodup)
    {j k : Job} (hj : j ∈ jobs) (hk : k ∈ jobs) (hid : k.id = j.id) : k = j :=
  List.inj_on_of_nodup_map hnd hk hj hid

theorem find?_id_of_mem : ∀ {jobs : List Job}, (jobs.map Job.id).Nodup →
    ∀ {j : Job}, j ∈ jobs → jobs.find? (fun k => k.id == j.id) = some j := by
  intro jobs
  induction jobs with
  | nil => intro _ j hj; simp at hj
  | cons k rest ih =>
    intro hnd j hj
    rw [List.map_cons, List.nodup_cons] at hnd
    by_cases hc : (k.id == j.id) = true
    · rcases (by simpa using hj : j = k ∨ j ∈ rest) with rfl | hmem
      · simp [List.find?_cons, hc]
      · exfalso
        apply hnd.1
        rw [show k.id = j.id by simpa using hc]
        exact List.mem_map.mpr ⟨j, hmem, rfl⟩
    · have hcb : (k.id == j.id) = false := by simpa using hc
      have hmem : j ∈ rest := by
        rcases (by simpa using hj : j = k ∨ j ∈ rest) with rfl | hm
        · simp at hc
        · exact hm
      simp only [List.find?_cons, hcb]
      exact ih hnd.2 hmem

theorem toStatus_ne_pending (ps : ProgressStatus) : ps.toStatus ≠ .pending := by
  cases ps <;> simp [ProgressStatus.toStatus]

/-- If a job list is untouched by a step, a job that was not pending is still
not pending afterwards (using distinctness of ids to identify the job). -/
theorem not_pending_same_list {jobs : List Job} (hnd : (jobs.map Job.id).Nodup)
    {j : Job} (hj : j ∈ jobs) (hnp : j.status ≠ .pending) :
    ∀ j2 ∈ jobs, j2.id = j.id → j2.status ≠ .pending := by
  intro j2 hj2 hid
  rw [eq_of_mem_ids_nodup hnd hj hj2 hid]
  exact hnp

/-- An `updateJob` whose update never writes `pending` cannot make a
non-pending job pending. -/
theorem not_pending_updateJobs {jobs : List Job} (hnd : (jobs.map Job.id).Nodup)
    {j : Job} (hj : j ∈ jobs) (hnp : j.status ≠ .pending)
    (now uid : Nat) (u : JobUpdate) (hu : ∀ st, u.status = some st → st ≠ .pending) :
    ∀ j2 ∈ updateJobs now uid u jobs, j2.id = j.id → j2.status ≠ .pending := by
  intro j2 hj2 hid
  rcases mem_updateJobs hj2 with ⟨k, hk, hcase⟩
  rcases hcase with ⟨rfl, h2⟩ | ⟨rfl, h2⟩
  · rw [eq_of_mem_ids_nodup hnd hj hk hid]
    exact hnp
  · cases hst : u.status with
    | none =>
      have hs : (applyUpdate u now k).status = k.status := by simp [applyUpdate, hst]
      rw [hs]
      have hkid : k.id = j.id := by simpa [applyUpdate_id] using hid
      rw [eq_of_mem_ids_nodup hnd hj hk hkid]
      exact hnp
    | some st =>
      have hs : (applyUpdate u now k).status = st := by simp [applyUpdate, hst]
      rw [hs]
      exact hu st hst

/-- Core of the exhaustion property: no coordinator step sets a
retry-exhausted, non-pending job back to pending. In particular the retry
requeue is guarded by `retryCount < maxRetries` re-read from the state
immediately before the update (`runLoop`, lines 124-130). -/
theorem step_no_pending_set {ms : Settings} {s s2 : CoordState} {e : CoordEvent}
    (hwf : WellFormed ms s) (h : stepEvent ms s e = some s2)
    {j : Job} (hj : j ∈ s.q.jobs) (hex : ms.maxRetries ≤ j.retryCount)
    (hnp : j.status ≠ .pending) :
    ∀ j2 ∈ s2.q.jobs, j2.id = j.id → j2.status ≠ .pending := by
  obtain ⟨hnd, hbound, hr⟩ := hwf
  cases e with
  | addJobs inputs =>
    simp only [stepEvent, Option.some.injEq] at h
    subst h
    intro j2 hj2 hid
    rcases List.mem_append.mp hj2 with hj2 | hj2
    · exact not_pending_same_list hnd hj hnp j2 hj2 hid
    · exfalso
      have h1 := (mkJobs_mem inputs s.nextId s.now j2 hj2).1
      have h2 := hbound j hj
      omega
  | clearQueue =>
    simp only [stepEvent, Option.some.injEq] at h
    subst h
    intro j2 hj2
    simp [tick, addLog] at hj2
  | startQueue =>
    simp only [stepEvent] at h
    split at h
    · exact Option.noConfusion h
    · simp only [Option.some.injEq] at h
      subst h
      exact not_pending_same_list hnd hj hnp
  | stopQueue =>
    simp only [stepEvent, Option.some.injEq] at h
    subst h
    exact not_pending_same_list hnd hj hnp
  | loopNoPending =>
    simp only [stepEvent] at h
    split at h
    · split at h
      · simp only [Option.some.injEq] at h
        subst h
        exact not_pending_same_list hnd hj hnp
      · exact Option.noConfusion h
    · exact Option.noConfusion h
  | loopPick =>
    simp only [stepEvent] at h
    split at h
    · split at h
      · simp only [Option.some.injEq] at h
        subst h
        exact not_pending_same_list hnd hj hnp
      · exact Option.noConfusion h
    · exact Option.noConfusion h
  | loopPageFail =>
    simp only [stepEvent] at h
    split at h
    · simp only [Option.some.injEq] at h
      subst h
      exact not_pending_same_list hnd hj hnp
    · exact Option.noConfusion h
  | markFilling id =>
    simp only [stepEvent] at h
    split at h
    · simp only [Option.some.injEq] at h
      subst h
      exact not_pending_updateJobs hnd hj hnp s.now id _ (by intro st hst; cases hst; simp)
    · exact Option.noConfusion h
  | progressUpdate id ps err =>
    have key : ∀ j2 ∈ updateJobs s.now id { status := some ps.toStatus, error := some err } s.q.jobs,
        j2.id = j.id → j2.status ≠ .pending :=
      not_pending_updateJobs hnd hj hnp s.now id _
        (by intro st hst; cases hst; exact toStatus_ne_pending ps)
    cases ps <;> simp only [stepEvent, Option.some.injEq] at h <;> subst h <;> exact key
  | execFailNoRetry id =>
    simp only [stepEvent] at h
    split at h
    · simp only [Option.some.injEq] at h
      subst h
      exact not_pending_same_list hnd hj hnp
    · exact Option.noConfusion h
  | retryRequeue id =>
    simp only [stepEvent] at h
    split at h
    case isTrue hguard =>
      simp only [Option.some.injEq] at h
      subst h
      intro j2 hj2 hid
      rcases mem_updateJobs hj2 with ⟨k, hk, hcase⟩
      rcases hcase with ⟨rfl, h2⟩ | ⟨rfl, h2⟩
      · rw [eq_of_mem_ids_nodup hnd hj hk hid]
        exact hnp
      · exfalso
        have hkid : k.id = j.id := by simpa [applyUpdate_id] using hid
        have hkj : k = j := eq_of_mem_ids_nodup hnd hj hk hkid
        subst hkj
        have hid2 : k.id = id := by simpa using h2
        subst hid2
        rw [show findJob s k.id = some k from find?_id_of_mem hnd hk] at hguard
        simp only [Option.map_some', Option.getD_some] at hguard
        omega
    case isFalse => exact Option.noConfusion h

/-- C1 (amended): over every event trace of the coordinator from its initial
state, each queued job's retryCount is at most the configured maxRetries (the
requeue increments only under the re-read guard `retryCount < maxRetries`);
and once a job's retries are exhausted and it has left pending, no coordinator
step ever sets it back to pending. (As stated the claim is refuted by
`retryExhaustion_counterexample`: a final execution that fails without a
`failed` progress report leaves the exhausted job in its last in-progress
status, not in `failed`.) -/
theorem retryBound_and_exhausted_never_repended (ms : Settings) (tr : List CoordEvent) :
    (∀ j ∈ (runEvents ms initState tr).q.jobs, j.retryCount ≤ ms.maxRetries) ∧
    (∀ e s2, stepEvent ms (runEvents ms initState tr) e = some s2 →
      ∀ j ∈ (runEvents ms initState tr).q.jobs,
        ms.maxRetries ≤ j.retryCount → j.status ≠ .pending →
        ∀ j2 ∈ s2.q.jobs, j2.id = j.id → j2.status ≠ .pending) := by
  have hwf := wellFormed_runEvents ms tr initState (wellFormed_init ms)
  exact ⟨hwf.2.2, fun e s2 h j hj hex hnp => step_no_pending_set hwf h hj hex hnp⟩

/-- Settings with no retry budget, as configurable through the settings
panel (`maxRetries` may be set to 0). -/
def msNoRetry : Settings := { defaultSettings with maxRetries := 0 }

/-- A sample song input. -/
def sampleInput : SongInput :=
  { title := "A", style := "pop", lyrics := "la la", instrumental := false,
    downloadFolder := none }

/-- A second sample song input. -/
def sampleInput2 : SongInput :=
  { title := "B", style := "rock", lyrics := "lo", instrumental := false,
    downloadFolder := none }

/-- One job added, queue started, the job picked and marked filling; the
content script then never reports progress and the execution watchdog
(`executeJobViaContentScript`, generationTimeout + 30s) resolves false. -/
def c1Trace : List CoordEvent :=
  [.addJobs [sampleInput], .startQueue, .loopPick, .markFilling 0]

/-- C1 counterexample: with maxRetries = 0, after a failed execution with
retryCount ≥ maxRetries (the watchdog timeout, which sends no `failed`
progress update), the job's status is `filling`, not the claimed terminal
`failed`. -/
theorem retryExhaustion_counterexample :
    ((stepEvent msNoRetry (runEvents msNoRetry initState c1Trace) (.execFailNoRetry 0)).bind
        (fun s2 => findJob s2 0)).map (fun j => (j.status, j.retryCount)) =
      some (.filling, 0) ∧
    msNoRetry.maxRetries = 0 ∧
    JobStatus.filling ≠ JobStatus.failed := by
  refine ⟨by decide, rfl, by decide⟩

/-- The job as it stands after `c1Trace`: picked and marked `filling`, no
retries used. -/
def c1Job : Job :=
  { id := 0, input := sampleInput, status := .filling, error := none,
    retryCount := 0, createdAt := 0, updatedAt := 3 }

/-- Witness for the amended C1 at a concrete state: the exhausted `filling`
job (maxRetries = 0) keeps retryCount ≤ maxRetries, and a further step
(stopping the queue) does not set it back to pending. -/
theorem retryBound_witness :
    ∃ s2, stepEvent msNoRetry (runEvents msNoRetry initState c1Trace) .stopQueue = some s2 ∧
      c1Job ∈ (runEvents msNoRetry initState c1Trace).q.jobs ∧
      c1Job.retryCount ≤ msNoRetry.maxRetries ∧
      ∀ j2 ∈ s2.q.jobs, j2.id = c1Job.id → j2.status ≠ .pending := by
  have h := retryBound_and_exhausted_never_repended msNoRetry c1Trace
  cases hst : stepEvent msNoRetry (runEvents msNoRetry initState c1Trace) .stopQueue with
  | none => exact absurd hst (by decide)
  | some s2 =>
    have hmem : c1Job ∈ (runEvents msNoRetry initState c1Trace).q.jobs := by decide
    exact ⟨s2, rfl, hmem, h.1 c1Job hmem,
      h.2 .stopQueue s2 hst c1Job hmem (by decide) (by decide)⟩

/-- Number of jobs currently holding an in-progress ("active") status. -/
def countActive (q : QueueState) : Nat :=
  (q.jobs.filter (fun j => isInProgress j.status)).length

/-- C2 (amended): whenever the run loop picks a job
(`runLoop` lines 92-104), the picked job is the first job with status
`pending` in insertion order — every job before it in the list is
non-pending — and the step sets `currentJobId` to exactly that job's id while
leaving the job list and the running flag unchanged. -/
theorem loopPick_first_pending (ms : Settings) (s s2 : CoordState)
    (h : stepEvent ms s .loopPick = some s2) :
    ∃ pre j post, s.q.jobs = pre ++ j :: post ∧
      j.status = .pending ∧
      (∀ k ∈ pre, k.status ≠ .pending) ∧
      s2.q.jobs = s.q.jobs ∧
      s2.q.currentJobId = some j.id ∧
      s2.q.running = s.q.running ∧
      s2.loopActive = s.loopActive := by
  simp only [stepEvent] at h
  split at h
  case isTrue hact =>
    split at h
    case h_1 j hfp =>
      simp only [Option.some.injEq] at h
      subst h
      rw [firstPending] at hfp
      rw [List.find?_eq_some] at hfp
      obtain ⟨hpj, pre, post, hsplit, hpre⟩ := hfp
      refine ⟨pre, j, post, hsplit, by simpa using hpj, ?_, rfl, rfl, rfl, by simp [tick, addLog, hact]⟩
      intro k hk
      have := hpre k hk
      simpa using this
    case h_2 => exact Option.noConfusion h
  case isFalse => exact Option.noConfusion h

/-- Two jobs added, queue started, first job picked: `currentJobId` is set
while the picked job is still `pending` (the page check has not finished). -/
def c2TraceA : List CoordEvent :=
  [.addJobs [sampleInput, sampleInput2], .startQueue, .loopPick]

/-- Continuation: job 0 reaches `waiting`, its execution fails by watchdog
timeout with no retries left, and the loop moves on to job 1. -/
def c2TraceB : List CoordEvent :=
  c2TraceA ++ [.markFilling 0, .progressUpdate 0 .waiting none, .execFailNoRetry 0,
    .loopPick, .markFilling 1]

/-- C2 counterexample: right after picking, `currentJobId` is non-null while
no job holds an in-progress status (the picked job is still pending during
the page check); and after a watchdog-timeout exhaustion the timed-out job
keeps its `waiting` status while the next job is `filling`, so two jobs hold
in-progress statuses at once. -/
theorem singleActive_counterexample :
    (countActive (runEvents msNoRetry initState c2TraceA).q = 0 ∧
      (runEvents msNoRetry initState c2TraceA).q.currentJobId = some 0 ∧
      (runEvents msNoRetry initState c2TraceA).q.running = true) ∧
    (countActive (runEvents msNoRetry initState c2TraceB).q = 2 ∧
      (runEvents msNoRetry initState c2TraceB).q.currentJobId = some 1) := by
  refine ⟨⟨?_, ?_, ?_⟩, ?_, ?_⟩ <;> decide

/-- Witness for the amended C2: on a concrete two-job queue whose first job
is already completed, the pick selects job 1 — the first pending job — and
records its id in `currentJobId`. -/
theorem loopPick_witness :
    ∃ s2, stepEvent defaultSettings
        (runEvents defaultSettings initState
          [.addJobs [sampleInput, sampleInput2], .startQueue, .loopPick, .markFilling 0,
            .progressUpdate 0 .completed none, .loopPick])
        .loopPick = some s2 ∧
      ∃ pre j post,
        (runEvents defaultSettings initState
          [.addJobs [sampleInput, sampleInput2], .startQueue, .loopPick, .markFilling 0,
            .progressUpdate 0 .completed none, .loopPick]).q.jobs = pre ++ j :: post ∧
        j.status = .pending ∧ j.id = 1 ∧
        (∀ k ∈ pre, k.status ≠ .pending) ∧
        s2.q.currentJobId = some j.id := by
  cases hst : stepEvent defaultSettings
      (runEvents defaultSettings initState
        [.addJobs [sampleInput, sampleInput2], .startQueue, .loopPick, .markFilling 0,
          .progressUpdate 0 .completed none, .loopPick])
      .loopPick with
  | none => exact absurd hst (by decide)
  | some s2 =>
    obtain ⟨pre, j, post, h1, h2, h3, h4, h5, h6, h7⟩ :=
      loopPick_first_pending defaultSettings _ s2 hst
    refine ⟨s2, rfl, pre, j, post, h1, h2, ?_, h3, h5⟩
    have hfp : firstPending (runEvents defaultSettings initState
        [.addJobs [sampleInput, sampleInput2], .startQueue, .loopPick, .markFilling 0,
          .progressUpdate 0 .completed none, .loopPick]).q.jobs =
        (runEvents defaultSettings initState
          [.addJobs [sampleInput, sampleInput2], .startQueue, .loopPick, .markFilling 0,
            .progressUpdate 0 .completed none, .loopPick]).q.jobs.find?
          (fun k => k.status == .pending) := rfl
    have hjmem : j ∈ (runEvents defaultSettings initState
        [.addJobs [sampleInput, sampleInput2], .startQueue, .loopPick, .markFilling 0,
          .progressUpdate 0 .completed none, .loopPick]).q.jobs := by
      rw [h1]
      exact List.mem_append.mpr (Or.inr (List.mem_cons_self j post))
    have hids : ∀ k ∈ (runEvents defaultSettings initState
        [.addJobs [sampleInput, sampleInput2], .startQueue, .loopPick, .markFilling 0,
          .progressUpdate 0 .completed none, .loopPick]).q.jobs,
        k.status = .pending → k.id = 1 := by decide
    exact hids j hjmem h2

/-- C4 (amended): every coordinator step that changes the live `QueueState`
leaves the persisted snapshot equal to the new live state — except
`startQueue` (which sets `running = true` without calling `persistState()`,
lines 68-77) and the run loop's job selection (which sets `currentJobId`
without persisting, lines 102-104). -/
theorem mutation_persists (ms : Settings) (s s2 : CoordState) (e : CoordEvent)
    (h : stepEvent ms s e = some s2) (hmut : s2.q ≠ s.q)
    (hne1 : e ≠ .startQueue) (hne2 : e ≠ .loopPick) :
    s2.persisted = s2.q := by
  cases e with
  | addJobs inputs =>
    simp only [stepEvent, Option.some.injEq] at h
    subst h
    rfl
  | clearQueue =>
    simp only [stepEvent, Option.some.injEq] at h
    subst h
    rfl
  | startQueue => exact absurd rfl hne1
  | stopQueue =>
    simp only [stepEvent, Option.some.injEq] at h
    subst h
    rfl
  | loopNoPending =>
    simp only [stepEvent] at h
    split at h
    · split at h
      · simp only [Option.some.injEq] at h
        subst h
        rfl
      · exact Option.noConfusion h
    · exact Option.noConfusion h
  | loopPick => exact absurd rfl hne2
  | loopPageFail =>
    simp only [stepEvent] at h
    split at h
    · simp only [Option.some.injEq] at h
      subst h
      rfl
    · exact Option.noConfusion h
  | markFilling id =>
    simp only [stepEvent] at h
    split at h
    · simp only [Option.some.injEq] at h
      subst h
      rfl
    · exact Option.noConfusion h
  | progressUpdate id ps err =>
    cases ps <;> simp only [stepEvent, Option.some.injEq] at h <;> subst h <;> rfl
  | execFailNoRetry id =>
    simp only [stepEvent] at h
    split at h
    · simp only [Option.some.injEq] at h
      subst h
      exact absurd rfl hmut
    · exact Option.noConfusion h
  | retryRequeue id =>
    simp only [stepEvent] at h
    split at h
    · simp only [Option.some.injEq] at h
      subst h
      rfl
    · exact Option.noConfusion h

/-- C4 counterexample: `startQueue` mutates the live state
(`running := true`) but never calls `persistState()`, so right after starting
the persisted snapshot is stale: it still says `running = false` and differs
from the live state. -/
theorem startQueue_not_persisted_counterexample :
    (runEvents defaultSettings initState [.addJobs [sampleInput], .startQueue]).q.running = true ∧
    (runEvents defaultSettings initState
      [.addJobs [sampleInput], .startQueue]).persisted.running = false ∧
    (runEvents defaultSettings initState [.addJobs [sampleInput], .startQueue]).q ≠
      (runEvents defaultSettings initState [.addJobs [sampleInput], .startQueue]).persisted := by
  refine ⟨?_, ?_, ?_⟩ <;> decide

/-- Witness for the amended C4: adding a job from the initial state changes
the queue and leaves the persisted snapshot equal to the live state. -/
theorem mutation_persists_witness :
    ∃ s2, stepEvent defaultSettings initState (.addJobs [sampleInput]) = some s2 ∧
      s2.persisted = s2.q :=
  ⟨_, rfl, mutation_persists defaultSettings initState _ (.addJobs [sampleInput]) rfl
    (by decide) (by decide) (by decide)⟩

/-! ## Page check (`checkPageWithRetry`) -/

/-- The observable outcome of one page-check attempt
(`checkPageWithRetry` body): whether a suno.com/create tab was found, whether
the content script answered the ping, whether injection succeeded, and
whether the post-injection ping answered. -/
structure PageAttempt where
  tabFound : Bool
  pingOk : Bool
  injectOk : Bool
  pingAfterInject : Bool
deriving DecidableEq, Repr

/-- One attempt succeeds when a tab is found and either the ping answers or
the script is injected and then answers. -/
def attemptSucceeds (a : PageAttempt) : Bool :=
  a.tabFound && (a.pingOk || (a.injectOk && a.pingAfterInject))

/-- `checkPageWithRetry(maxAttempts, intervalMs)` over the sequence of
attempt outcomes: true when some of the first `maxAttempts` attempts
succeeds (the loop returns `true` at the first success and `false` after
exhausting all attempts). -/
def checkPageWithRetry (attempts : List PageAttempt) (maxAttempts : Nat) : Bool :=
  (attempts.take maxAttempts).any attemptSucceeds

/-- C8: when none of the 5 page-check attempts finds a live content page,
`checkPageWithRetry(5, 3000)` reports failure and the run loop halts: the
loop flag clears, `running` becomes false, `currentJobId` becomes null, the
job list (hence the current job's pending status and retry count) is
untouched, and an error log entry is emitted. -/
theorem pageCheckFail_halts (ms : Settings) (s s2 : CoordState) (attempts : List PageAttempt)
    (hlen : attempts.length = 5)
    (hfail : ∀ a ∈ attempts, attemptSucceeds a = false)
    (h : stepEvent ms s .loopPageFail = some s2) :
    checkPageWithRetry attempts 5 = false ∧
    s2.loopActive = false ∧
    s2.q.running = false ∧
    s2.q.currentJobId = none ∧
    s2.q.jobs = s.q.jobs ∧
    s2.persisted = s2.q ∧
    s2.logs = s.logs ++ [(.error, pageFailLogMsg)] := by
  simp only [stepEvent] at h
  split at h
  case isTrue hact =>
    simp only [Option.some.injEq] at h
    subst h
    refine ⟨?_, rfl, rfl, rfl, rfl, rfl, rfl⟩
    rw [checkPageWithRetry]
    rw [List.any_eq_false]
    intro a ha
    simp only [Bool.not_eq_true]
    exact hfail a (List.mem_of_mem_take ha)
  case isFalse => exact Option.noConfusion h

/-- A page-check attempt that finds no suno.com/create tab at all. -/
def failedAttempt : PageAttempt :=
  { tabFound := false, pingOk := false, injectOk := false, pingAfterInject := false }

/-- Five attempts, none of which finds a tab. -/
def fiveFailedAttempts : List PageAttempt := List.replicate 5 failedAttempt

/-- Witness for C8: from a started queue with a picked job, five failed
attempts halt the queue with the job untouched and an error log entry. -/
theorem pageCheckFail_halts_witness :
    ∃ s2, stepEvent defaultSettings (runEvents defaultSettings initState c2TraceA)
        .loopPageFail = some s2 ∧
      checkPageWithRetry fiveFailedAttempts 5 = false ∧
      s2.loopActive = false ∧
      s2.q.running = false ∧
      s2.q.currentJobId = none ∧
      s2.q.jobs = (runEvents defaultSettings initState c2TraceA).q.jobs ∧
      s2.logs = (runEvents defaultSettings initState c2TraceA).logs ++
        [(.error, pageFailLogMsg)] := by
  cases hst : stepEvent defaultSettings (runEvents defaultSettings initState c2TraceA)
      .loopPageFail with
  | none => exact absurd hst (by decide)
  | some s2 =>
    obtain ⟨h1, h2, h3, h4, h5, h6, h7⟩ :=
      pageCheckFail_halts defaultSettings _ s2 fiveFailedAttempts (by decide) (by decide) hst
    exact ⟨s2, rfl, h1, h2, h3, h4, h5, h7⟩

/-! ## Generation monitor result and the timeout path -/

/-- `MonitorResult` from `generation-monitor.ts` (current iteration, with the
urls of newly detected songs). -/
structure MonitorResult where
  completed : Bool
  timedOut : Bool
  songUrls : List String
deriving DecidableEq, Repr

/-- Step 4 of `executeJob` (`suno-automation.ts`, lines 75-83): after the
monitor returns, `checkAbort()` runs, and a timed-out result throws
`Error("Generation timed out")`. -/
def generationWaitOutcome (abortedFlag : Bool) (result : MonitorResult) :
    Except String Unit :=
  if abortedFlag then .error "Job aborted"
  else if result.timedOut then .error "Generation timed out"
  else .ok ()

/-- `handleExecuteJob` (content-script message handler): a throw from
`executeJob` is caught and forwarded as a `JOB_PROGRESS` message with status
`failed` and the error message; the coordinator listener turns it into the
corresponding `progressUpdate` event. -/
def failureProgressEvent (jobId : Nat) : Except String Unit → Option CoordEvent
  | .error msg => some (.progressUpdate jobId .failed (some msg))
  | .ok _ => none

theorem findJob_tick (s : CoordState) (id : Nat) : findJob (tick s) id = findJob s id := rfl

theorem findJob_addLog (s : CoordState) (lv : LogLevel) (msg : String) (id : Nat) :
    findJob (addLog s lv msg) id = findJob s id := rfl

theorem findJob_updateJob (s : CoordState) (id : Nat) (u : JobUpdate) :
    findJob (updateJob s id u) id = (findJob s id).map (applyUpdate u s.now) :=
  find?_updateJobs_same s.now id u s.q.jobs

/-- Effect of a progress update on the reported job: status and error are
overwritten (the listener always passes both fields), retryCount is kept. -/
theorem progressUpdate_effect (ms : Settings) (s : CoordState) (jid : Nat) (j : Job)
    (ps : ProgressStatus) (err : Option String)
    (hfind : findJob s jid = some j) :
    ∃ s1, stepEvent ms s (.progressUpdate jid ps err) = some s1 ∧
      findJob s1 jid =
        some { j with status := ps.toStatus, error := err, updatedAt := s.now } := by
  cases ps <;>
    exact ⟨_, rfl, by
      simp only [findJob_tick, findJob_addLog, findJob_updateJob, hfind]
      rfl⟩

/-- Effect of the retry requeue when the guard `retryCount < maxRetries`
holds on the re-read job: status back to pending, retryCount incremented by
exactly one, error untouched. -/
theorem retryRequeue_effect (ms : Settings) (s1 : CoordState) (jid : Nat) (j1 : Job)
    (hfind : findJob s1 jid = some j1) (hlt : j1.retryCount < ms.maxRetries) :
    ∃ s2, stepEvent ms s1 (.retryRequeue jid) = some s2 ∧
      findJob s2 jid =
        some { j1 with
          status := .pending, retryCount := j1.retryCount + 1, updatedAt := s1.now } := by
  have hrr : ((findJob s1 jid).map Job.retryCount).getD 0 = j1.retryCount := by
    rw [hfind]
    rfl
  simp only [stepEvent]
  rw [hrr, if_pos hlt]
  refine ⟨_, rfl, ?_⟩
  rw [findJob_tick, findJob_addLog, findJob_updateJob, hfind]
  rfl

/-- C7: when generation exceeds the configured timeout, `executeJob` throws
the timeout-specific error "Generation timed out", the content handler
reports the job `failed` with that message, the coordinator records status
`failed` and the error; and since `retryCount < maxRetries`, the runner then
requeues the job as `pending` with retryCount incremented by exactly 1. -/
theorem generationTimeout_retries (ms : Settings) (s : CoordState) (jid : Nat) (j : Job)
    (res : MonitorResult)
    (hfind : findJob s jid = some j)
    (hretry : j.retryCount < ms.maxRetries)
    (hto : res.timedOut = true) :
    generationWaitOutcome false res = .error "Generation timed out" ∧
    failureProgressEvent jid (generationWaitOutcome false res) =
      some (.progressUpdate jid .failed (some "Generation timed out")) ∧
    ∃ s1, stepEvent ms s (.progressUpdate jid .failed (some "Generation timed out")) = some s1 ∧
      findJob s1 jid =
        some { j with
          status := .failed, error := some "Generation timed out", updatedAt := s.now } ∧
      ∃ s2, stepEvent ms s1 (.retryRequeue jid) = some s2 ∧
        findJob s2 jid =
          some { j with
            status := .pending, error := some "Generation timed out",
            retryCount := j.retryCount + 1, updatedAt := s1.now } := by
  have hout : generationWaitOutcome false res = .error "Generation timed out" := by
    rw [generationWaitOutcome, if_neg (by simp), if_pos hto]
  refine ⟨hout, by rw [hout]; rfl, ?_⟩
  obtain ⟨s1, hs1, hf1⟩ :=
    progressUpdate_effect ms s jid j .failed (some "Generation timed out") hfind
  refine ⟨s1, hs1, hf1, ?_⟩
  obtain ⟨s2, hs2, hf2⟩ := retryRequeue_effect ms s1 jid _ hf1 (by
    show Job.retryCount _ < ms.maxRetries
    simpa using hretry)
  exact ⟨s2, hs2, hf2⟩

/-- Witness for C7 on a concrete state: the `filling` job with no retries
used, under the default maxRetries = 3, goes to `failed` with the timeout
message and is then requeued pending with retryCount 1. -/
theorem generationTimeout_retries_witness :
    ∃ s1, stepEvent defaultSettings
        (runEvents defaultSettings initState c1Trace)
        (.progressUpdate 0 .failed (some "Generation timed out")) = some s1 ∧
      ((findJob s1 0).map (fun j => (j.status, j.error))).getD (.pending, none) =
        (.failed, some "Generation timed out") ∧
      ∃ s2, stepEvent defaultSettings s1 (.retryRequeue 0) = some s2 ∧
        ((findJob s2 0).map (fun j => (j.status, j.retryCount))).getD (.failed, 0) =
          (.pending, 1) := by
  obtain ⟨h1, h2, s1, hs1, hf1, s2, hs2, hf2⟩ :=
    generationTimeout_retries defaultSettings (runEvents defaultSettings initState c1Trace)
      0 c1Job ⟨false, true, []⟩ (by decide) (by decide) rfl
  refine ⟨s1, hs1, ?_, s2, hs2, ?_⟩
  · rw [hf1]
    rfl
  · rw [hf2]
    rfl

/-! ## Element resolver (`selectors-runtime.ts` and `dom-utils.ts`)

The DOM is abstracted as a `Page` supplying `document.querySelector`
(first match or null; `safeQuerySelector` turns a throwing selector into
null, so the model is total) and `document.querySelectorAll`
(document-order list). Element text is carried on the element. -/

/-- A DOM element as the resolver observes it: an identity, its full
`textContent` (null coalesced to the empty string, as in the source) and the
concatenation of its direct text nodes (`getDirectTextContent`). -/
structure Elem where
  eid : Nat
  text : String
  directText : String
deriving DecidableEq, Repr

/-- The DOM query interface used by the resolver. -/
structure Page where
  query : String → Option Elem
  queryAll : String → List Elem

/-- JS `String.prototype.toLowerCase`, modeled character-wise (ASCII case
mapping via `Char.toLower`). -/
def jsToLower (s : String) : String := String.mk (s.data.map Char.toLower)

/-- JS `String.prototype.trim`: drop whitespace from both ends. -/
def jsTrimChars (l : List Char) : List Char :=
  ((l.dropWhile Char.isWhitespace).reverse.dropWhile Char.isWhitespace).reverse

/-- `trim` on strings. -/
def jsTrim (s : String) : String := String.mk (jsTrimChars s.data)

/-- JS `String.prototype.includes` on already-lowercased strings: substring
containment. -/
def lowerIncludes (s pat : String) : Bool :=
  decide (pat.data <:+: s.data)

/-- `elementContainsText(el, text)`:
`(el.textContent ?? "").toLowerCase().includes(text.toLowerCase())`. -/
def elementContainsText (el : Elem) (text : String) : Bool :=
  lowerIncludes (jsToLower el.text) (jsToLower text)

/-- `findElementByText(tag, text)` from `dom-utils.ts`: first pass prefers an
element whose direct text matches, second pass falls back to full
(trimmed) `textContent`. -/
def findElementByText (page : Page) (tag text : String) : Option Elem :=
  let elements := page.queryAll tag
  let lowerText := jsToLower text
  match elements.find? (fun el => lowerIncludes (jsToLower el.directText) lowerText) with
  | some el => some el
  | none => elements.find? (fun el => lowerIncludes (jsToLower (jsTrim el.text)) lowerText)

/-- A selector table entry (`SelectorEntry` in `config/selectors.ts`). -/
structure SelectorEntry where
  primary : String
  fallbacks : List String
  textMatch : Option String
  description : String
deriving DecidableEq, Repr

/-- The required-text check applied to a candidate: with no `textMatch` every
candidate passes; with one, `elementContainsText` must hold (the source
writes `entry.textMatch && !elementContainsText(el, entry.textMatch)` for
the rejection). -/
def passesTextMatch (tm : Option String) (el : Elem) : Bool :=
  match tm with
  | some t => elementContainsText el t
  | none => true

/-- Step 2 of `resolveSelector`: try each fallback locator in order; a
fallback that matches an element failing the text check is skipped
(`continue`), the first fallback whose element passes is returned. -/
def tryFallbacks (page : Page) (tm : Option String) : List String → Option Elem
  | [] => none
  | fb :: rest =>
    match page.query fb with
    | some el => if passesTextMatch tm el then some el else tryFallbacks page tm rest
    | none => tryFallbacks page tm rest

/-- The interactive element classes searched in step 3:
`["button", "a", "[role=\"menuitem\"]", "[role=\"option\"]"]`. -/
def interactiveTags : List String :=
  ["button", "a", "[role=\"menuitem\"]", "[role=\"option\"]"]

/-- Steps 2-4 of `resolveSelector` (everything after the primary attempt):
fallbacks in order, then — only when a required text exists — a text search
over the interactive element classes, else null. -/
def resolveAfterPrimary (page : Page) (entry : SelectorEntry) : Option Elem :=
  match tryFallbacks page entry.textMatch entry.fallbacks with
  | some el => some el
  | none =>
    match entry.textMatch with
    | some t => interactiveTags.findSome? (fun tag => findElementByText page tag t)
    | none => none

/-- `resolveSelector` from `selectors-runtime.ts`: try the primary locator
(returning it unless a required text exists and fails), then steps 2-4. -/
def resolveSelector (page : Page) (entry : SelectorEntry) : Option Elem :=
  match page.query entry.primary with
  | some el =>
    if passesTextMatch entry.textMatch el then some el else resolveAfterPrimary page entry
  | none => resolveAfterPrimary page entry

/-- The primary attempt yields nothing usable: no match, or a match failing
the required-text check. -/
def primaryFails (page : Page) (entry : SelectorEntry) : Prop :=
  page.query entry.primary = none ∨
  ∃ el, page.query entry.primary = some el ∧ passesTextMatch entry.textMatch el = false

/-- Whether a fallback locator matches an element that passes the
required-text check. -/
def fallbackAccepts (page : Page) (tm : Option String) (fb : String) : Bool :=
  match page.query fb with
  | some el => passesTextMatch tm el
  | none => false

theorem resolveSelector_of_primaryFails (page : Page) (entry : SelectorEntry)
    (hp : primaryFails page entry) :
    resolveSelector page entry = resolveAfterPrimary page entry := by
  rcases hp with hnone | ⟨el, hel, hfail⟩
  · rw [resolveSelector, hnone]
  · rw [resolveSelector, hel]
    simp only [hfail]
    rfl

theorem tryFallbacks_eq_none (page : Page) (tm : Option String) :
    ∀ fbs : List String, (∀ fb ∈ fbs, fallbackAccepts page tm fb = false) →
      tryFallbacks page tm fbs = none := by
  intro fbs
  induction fbs with
  | nil => intro _; rfl
  | cons fb rest ih =>
    intro hall
    have hacc := hall fb (List.mem_cons_self fb rest)
    cases hq : page.query fb with
    | none =>
      simp only [tryFallbacks, hq]
      exact ih (fun fb2 h2 => hall fb2 (List.mem_cons_of_mem fb h2))
    | some el =>
      simp only [fallbackAccepts, hq] at hacc
      simp only [tryFallbacks, hq, hacc, if_false]
      exact ih (fun fb2 h2 => hall fb2 (List.mem_cons_of_mem fb h2))

theorem tryFallbacks_first (page : Page) (tm : Option String) :
    ∀ (pre : List String) (fb : String) (post : List String),
      (∀ fb2 ∈ pre, fallbackAccepts page tm fb2 = false) →
      fallbackAccepts page tm fb = true →
      tryFallbacks page tm (pre ++ fb :: post) = page.query fb := by
  intro pre
  induction pre with
  | nil =>
    intro fb post _ hacc
    rw [List.nil_append]
    cases hq : page.query fb with
    | none =>
      simp only [fallbackAccepts, hq] at hacc
      exact Bool.noConfusion hacc
    | some el =>
      simp only [fallbackAccepts, hq] at hacc
      simp only [tryFallbacks, hq, hacc, if_true]
  | cons fb2 pre ih =>
    intro fb post hpre hacc
    have h2 := hpre fb2 (List.mem_cons_self fb2 pre)
    rw [List.cons_append]
    cases hq : page.query fb2 with
    | none =>
      simp only [tryFallbacks, hq]
      exact ih fb post (fun x hx => hpre x (List.mem_cons_of_mem fb2 hx)) hacc
    | some el =>
      simp only [fallbackAccepts, hq] at h2
      simp only [tryFallbacks, hq, h2, if_false]
      exact ih fb post (fun x hx => hpre x (List.mem_cons_of_mem fb2 hx)) hacc

/-- C5: when the primary locator matches nothing (or only an element failing
the required-text check): (1) if some fallback matches an element passing the
check, the first such fallback's element is returned; (2) if no fallback
yields a passing element and a required text exists, the result is exactly
the text search over the interactive element classes
button / a / [role=menuitem] / [role=option]; (3) with no required text and
no accepted fallback the result is null. -/
theorem resolveSelector_spec (page : Page) (entry : SelectorEntry)
    (hp : primaryFails page entry) :
    (∀ pre fb post, entry.fallbacks = pre ++ fb :: post →
      (∀ fb2 ∈ pre, fallbackAccepts page entry.textMatch fb2 = false) →
      fallbackAccepts page entry.textMatch fb = true →
      resolveSelector page entry = page.query fb ∧
      ∃ el, page.query fb = some el ∧ passesTextMatch entry.textMatch el = true) ∧
    ((∀ fb ∈ entry.fallbacks, fallbackAccepts page entry.textMatch fb = false) →
      ∀ t, entry.textMatch = some t →
        resolveSelector page entry =
          interactiveTags.findSome? (fun tag => findElementByText page tag t)) ∧
    ((∀ fb ∈ entry.fallbacks, fallbackAccepts page entry.textMatch fb = false) →
      entry.textMatch = none →
      resolveSelector page entry = none) := by
  rw [resolveSelector_of_primaryFails page entry hp]
  refine ⟨?_, ?_, ?_⟩
  · intro pre fb post hsplit hpre hacc
    have htf : tryFallbacks page entry.textMatch entry.fallbacks = page.query fb := by
      rw [hsplit]
      exact tryFallbacks_first page entry.textMatch pre fb post hpre hacc
    cases hq : page.query fb with
    | none =>
      simp only [fallbackAccepts, hq] at hacc
      exact Bool.noConfusion hacc
    | some el =>
      rw [hq] at htf
      have hacc2 : passesTextMatch entry.textMatch el = true := by
        simpa only [fallbackAccepts, hq] using hacc
      constructor
      · simp only [resolveAfterPrimary, htf]
      · exact ⟨el, rfl, hacc2⟩
  · intro hall t ht
    rw [resolveAfterPrimary, tryFallbacks_eq_none page entry.textMatch entry.fallbacks hall, ht]
  · intro hall ht
    rw [resolveAfterPrimary, tryFallbacks_eq_none page entry.textMatch entry.fallbacks hall, ht]

/-- An element passing the required-text filter of the witness entry. -/
def elemGood : Elem := { eid := 1, text := " Download WAV ", directText := "Download WAV" }

/-- An element failing the required-text filter of the witness entry. -/
def elemBad : Elem := { eid := 2, text := "Publish clip", directText := "Publish clip" }

/-- A concrete page: the primary selector matches nothing, the first fallback
matches nothing, the second matches a filtered-out element, the third matches
an accepted one. -/
def wPage : Page :=
  { query := fun sel =>
      if sel = "fb1" then some elemBad
      else if sel = "fb2" then some elemGood
      else none
    queryAll := fun _ => [] }

/-- A selector entry with a required text and three fallbacks. -/
def wEntry : SelectorEntry :=
  { primary := "button.primary"
    fallbacks := ["fb0", "fb1", "fb2"]
    textMatch := some "download"
    description := "witness entry" }

/-- Witness for C5: on the concrete page the resolver returns the element of
the first fallback that matches and passes the required-text filter. -/
theorem resolveSelector_spec_witness :
    primaryFails wPage wEntry ∧ resolveSelector wPage wEntry = some elemGood := by
  have hp : primaryFails wPage wEntry := Or.inl rfl
  have h := (resolveSelector_spec wPage wEntry hp).1 ["fb0", "fb1"] "fb2" [] rfl
    (by decide) (by decide)
  exact ⟨hp, h.1⟩

/-! ## Generation monitor (`generation-monitor.ts`)

`monitorGeneration` starts at time 0, records baselines (clip-button count,
audio-element count, existing song ids), and runs `checkCompletion` from a
MutationObserver and a 3s poll timer; the merged, strictly increasing list of
times at which `checkCompletion` runs is a parameter. Detection strategies 1
and 2 schedule a settling `finish` 2000 ms later; strategy 3 finishes after
its song-url wait loop; a timer at `timeoutMs` finishes with a timed-out
result. Every `finish` is guarded by the `settled` flag, so the promise
resolves with the earliest generated settle event (earlier-registered wins a
tie). -/

/-- The DOM quantities the monitor observes, as functions of the time (ms
since monitor start) at which they are sampled. -/
structure MonitorEnv where
  clipCount : Nat → Nat
  audioCount : Nat → Nat
  loading : Nat → Bool
  songIds : Nat → List String

/-- The 2000 ms settling delay of detection strategies 1 and 2
(`setTimeout(..., 2000)`). -/
def settleDelay : Nat := 2000

/-- `getNewSongUrls()`: ids present now but not in the baseline, as
`/song/<id>` urls. -/
def newSongUrls (env : MonitorEnv) (baseline : List String) (t : Nat) : List String :=
  ((env.songIds t).filter (fun i => !(baseline.contains i))).map (fun i => "/song/" ++ i)

/-- The monitor's mutable detection state: `sawLoading` and
`loadingDisappearedAt` (0 meaning unset, as in the source). -/
structure MonSt where
  sawLoading : Bool
  loadingDisappearedAt : Nat
deriving DecidableEq, Repr

/-- The settle behaviour of strategy 3: finish immediately with the new song
urls if at least 2 were found; otherwise poll every 1000 ms up to 15 times,
finishing at the first poll that sees 2 urls, or at the 15th regardless. -/
def strategy3Settle (env : MonitorEnv) (base : List String) (t : Nat) :
    Nat × MonitorResult :=
  let urls := newSongUrls env base t
  if urls.length ≥ 2 then (t, { completed := true, timedOut := false, songUrls := urls })
  else
    let k := (((List.range 15).map (fun i => i + 1)).find?
      (fun k => decide ((newSongUrls env base (t + 1000 * k)).length ≥ 2))).getD 15
    (t + 1000 * k,
      { completed := true, timedOut := false, songUrls := newSongUrls env base (t + 1000 * k) })

/-- The `loadingDisappearedAt` update at a check: recorded (once) when
loading was seen before and is now absent (`loadingDisappearedAt === 0`
meaning unset, as in the source). -/
def updateLda (st : MonSt) (loading : Bool) (t : Nat) : Nat :=
  if (st.sawLoading || loading) && !loading && (st.loadingDisappearedAt == 0) then t
  else st.loadingDisappearedAt

/-- The strategy-3 guard: loading was seen, is now absent, the disappearance
was recorded, and at least 3000 ms have passed since. -/
def strategy3Fires (st : MonSt) (loading : Bool) (lda t : Nat) : Bool :=
  (st.sawLoading || loading) && !loading && decide (0 < lda) && decide (3000 ≤ t - lda)

/-- `checkCompletion` at time `t`: update the loading-transition state, then
strategy 1 (clip count above baseline) and strategy 2 (audio count above
baseline) schedule a completed finish at `t + settleDelay`; strategy 3
(loading seen, now absent for ≥ 3000 ms) finishes via `strategy3Settle`.
Returns the new state and the settle event this check generates, if any. -/
def checkCompletion (env : MonitorEnv) (base audioBase : Nat) (songBase : List String)
    (t : Nat) (st : MonSt) : MonSt × Option (Nat × MonitorResult) :=
  let loading := env.loading t
  let lda := updateLda st loading t
  let st2 : MonSt := { sawLoading := st.sawLoading || loading, loadingDisappearedAt := lda }
  if env.clipCount t > base then
    (st2, some (t + settleDelay,
      { completed := true, timedOut := false,
        songUrls := newSongUrls env songBase (t + settleDelay) }))
  else if env.audioCount t > audioBase then
    (st2, some (t + settleDelay,
      { completed := true, timedOut := false,
        songUrls := newSongUrls env songBase (t + settleDelay) }))
  else if strategy3Fires st loading lda t then
    (st2, some (strategy3Settle env songBase t))
  else (st2, none)

/-- The settle events generated by running `checkCompletion` at each time of
the (increasing) check timeline, threading the detection state. -/
def collectOffers (env : MonitorEnv) (base audioBase : Nat) (songBase : List String) :
    MonSt → List Nat → List (Nat × MonitorResult)
  | _, [] => []
  | st, t :: ts =>
    match checkCompletion env base audioBase songBase t st with
    | (st2, some off) => off :: collectOffers env base audioBase songBase st2 ts
    | (st2, none) => collectOffers env base audioBase songBase st2 ts

/-- The detection state after processing a timeline prefix. -/
def monStAfter (env : MonitorEnv) (base audioBase : Nat) (songBase : List String) :
    MonSt → List Nat → MonSt
  | st, [] => st
  | st, t :: ts =>
    monStAfter env base audioBase songBase
      (checkCompletion env base audioBase songBase t st).1 ts

/-- First settle event wins: earlier events in the list win ties (their
`finish` ran first and set `settled`). -/
def earliestOffer (first : Nat × MonitorResult) (rest : List (Nat × MonitorResult)) :
    Nat × MonitorResult :=
  rest.foldl (fun acc o => if o.1 < acc.1 then o else acc) first

/-- The timed-out result produced by the timeout timer. -/
def timeoutResult : MonitorResult := { completed := false, timedOut := true, songUrls := [] }

/-- `monitorGeneration(timeoutMs)`: baselines sampled at start (time 0), the
checks generate settle events, the timeout timer adds one at `timeoutMs`
(registered first, so it loses ties to check events already scheduled), and
the promise resolves with the earliest settle event. -/
def monitorGeneration (env : MonitorEnv) (checkTimes : List Nat) (timeoutMs : Nat) :
    Nat × MonitorResult :=
  let offers := collectOffers env (env.clipCount 0) (env.audioCount 0) (env.songIds 0)
    { sawLoading := false, loadingDisappearedAt := 0 } checkTimes
  match offers with
  | [] => (timeoutMs, timeoutResult)
  | o :: os => earliestOffer o (os ++ [(timeoutMs, timeoutResult)])

theorem collectOffers_append (env : MonitorEnv) (base audioBase : Nat)
    (songBase : List String) :
    ∀ (l1 l2 : List Nat) (st : MonSt),
      collectOffers env base audioBase songBase st (l1 ++ l2) =
        collectOffers env base audioBase songBase st l1 ++
          collectOffers env base audioBase songBase
            (monStAfter env base audioBase songBase st l1) l2 := by
  intro l1
  induction l1 with
  | nil => intro l2 st; rfl
  | cons t ts ih =>
    intro l2 st
    rw [List.cons_append, collectOffers]
    cases hc : checkCompletion env base audioBase songBase t st with
    | mk st2 off =>
      cases off with
      | some o =>
        simp only
        rw [ih l2 st2, collectOffers, hc]
        simp only [List.cons_append]
        rw [monStAfter, hc]
      | none =>
        simp only
        rw [ih l2 st2, collectOffers, hc]
        rw [monStAfter, hc]

theorem strategy3Fires_false_of_not_saw (st : MonSt) (loading : Bool) (lda t : Nat)
    (hsaw : st.sawLoading = false) : strategy3Fires st loading lda t = false := by
  rw [strategy3Fires, hsaw]
  cases loading <;> simp

/-- The state after any check: `sawLoading` absorbs the current loading
observation and `loadingDisappearedAt` follows `updateLda`. -/
theorem checkCompletion_state (env : MonitorEnv) (base audioBase : Nat)
    (songBase : List String) (t : Nat) (st : MonSt) :
    (checkCompletion env base audioBase songBase t st).1 =
      { sawLoading := st.sawLoading || env.loading t,
        loadingDisappearedAt := updateLda st (env.loading t) t } := by
  rw [checkCompletion]
  split
  · rfl
  · split
    · rfl
    · split
      · rfl
      · rfl

theorem strategy3Settle_time_ge (env : MonitorEnv) (base : List String) (t : Nat) :
    t ≤ (strategy3Settle env base t).1 := by
  rw [strategy3Settle]
  split
  · exact Nat.le_refl t
  · simp only
    omega

/-- Any settle event generated by a check at time `t` is either a
strategy-1/2 event at `t + settleDelay`, or a strategy-3 event (guard true)
at or after `t`. -/
theorem checkCompletion_offer (env : MonitorEnv) (base audioBase : Nat)
    (songBase : List String) (t : Nat) (st : MonSt) {st2 : MonSt} {o : Nat × MonitorResult}
    (hc : checkCompletion env base audioBase songBase t st = (st2, some o)) :
    o.1 = t + settleDelay ∨
    (strategy3Fires st (env.loading t) (updateLda st (env.loading t) t) t = true ∧ t ≤ o.1) := by
  rw [checkCompletion] at hc
  split at hc
  · left
    cases hc
    rfl
  · split at hc
    · left
      cases hc
      rfl
    · split at hc
      case isTrue hcond =>
        right
        cases hc
        exact ⟨hcond, strategy3Settle_time_ge env songBase t⟩
      case isFalse =>
        exact absurd (congrArg Prod.snd hc) (by simp)

/-- A check that sees baseline counts and no loading indicator generates no
settle event and leaves a never-saw-loading state unchanged. -/
theorem checkCompletion_quiet (env : MonitorEnv) (base audioBase : Nat)
    (songBase : List String) (t : Nat) (st : MonSt)
    (hsaw : st.sawLoading = false)
    (hclip : env.clipCount t ≤ base) (haudio : env.audioCount t ≤ audioBase)
    (hload : env.loading t = false) :
    checkCompletion env base audioBase songBase t st = (st, none) := by
  rw [checkCompletion]
  rw [if_neg (by omega), if_neg (by omega),
    if_neg (by rw [strategy3Fires_false_of_not_saw st _ _ t hsaw]; simp)]
  have hlda : updateLda st (env.loading t) t = st.loadingDisappearedAt := by
    rw [updateLda, hsaw, hload]
    simp
  rw [hlda]
  cases st with
  | mk saw lda =>
    simp only at hsaw
    subst hsaw
    rw [hload]
    rfl

theorem collectOffers_quiet (env : MonitorEnv) (base audioBase : Nat)
    (songBase : List String) :
    ∀ (ts : List Nat) (st : MonSt), st.sawLoading = false →
      (∀ t ∈ ts, env.clipCount t ≤ base ∧ env.audioCount t ≤ audioBase ∧
        env.loading t = false) →
      collectOffers env base audioBase songBase st ts = [] ∧
      monStAfter env base audioBase songBase st ts = st := by
  intro ts
  induction ts with
  | nil => intro st _ _; exact ⟨rfl, rfl⟩
  | cons t ts ih =>
    intro st hsaw hq
    obtain ⟨h1, h2, h3⟩ := hq t (List.mem_cons_self t ts)
    have hc := checkCompletion_quiet env base audioBase songBase t st hsaw h1 h2 h3
    obtain ⟨ih1, ih2⟩ := ih st hsaw (fun x hx => hq x (List.mem_cons_of_mem t hx))
    constructor
    · rw [collectOffers, hc]
      exact ih1
    · rw [monStAfter, hc]
      exact ih2

/-- All settle events generated after time `T` by checks later than `T` are
at or after `T + settleDelay`, provided no loading indicator shows before
`T + settleDelay`. -/
theorem collectOffers_lower_bound (env : MonitorEnv) (base audioBase : Nat)
    (songBase : List String) (T : Nat) :
    ∀ (ts : List Nat) (st : MonSt),
      List.Pairwise (· < ·) ts →
      (∀ t ∈ ts, T < t) →
      (∀ t ∈ ts, t < T + settleDelay → env.loading t = false) →
      (st.sawLoading = false ∨ ∀ t ∈ ts, T + settleDelay ≤ t) →
      ∀ o ∈ collectOffers env base audioBase songBase st ts, T + settleDelay ≤ o.1 := by
  intro ts
  induction ts with
  | nil => intro st _ _ _ _ o ho; simp [collectOffers] at ho
  | cons t ts ih =>
    intro st hpw hgt hnl hinv o ho
    have hpw2 := (List.pairwise_cons.mp hpw).2
    have hrel := (List.pairwise_cons.mp hpw).1
    have htT : T < t := hgt t (List.mem_cons_self t ts)
    rw [collectOffers] at ho
    cases hc : checkCompletion env base audioBase songBase t st with
    | mk st2 off =>
      have hst2 : st2 =
          { sawLoading := st.sawLoading || env.loading t,
            loadingDisappearedAt := updateLda st (env.loading t) t } := by
        rw [show st2 = (checkCompletion env base audioBase songBase t st).1 from by rw [hc]]
        exact checkCompletion_state env base audioBase songBase t st
      have hnext : st2.sawLoading = false ∨ ∀ x ∈ ts, T + settleDelay ≤ x := by
        rcases hinv with hsaw | hall
        · cases hload : env.loading t with
          | false =>
            left
            rw [hst2]
            simp [hsaw, hload]
          | true =>
            right
            have htge : T + settleDelay ≤ t := by
              by_contra hlt
              have := hnl t (List.mem_cons_self t ts) (by omega)
              rw [this] at hload
              exact Bool.noConfusion hload
            intro x hx
            exact le_trans htge (Nat.le_of_lt (hrel x hx))
        · right
          exact fun x hx => hall x (List.mem_cons_of_mem t hx)
      rw [hc] at ho
      cases off with
      | some o2 =>
        simp only at ho
        rcases List.mem_cons.mp ho with rfl | ho
        · rcases checkCompletion_offer env base audioBase songBase t st hc with heq | ⟨hf, hle⟩
          · rw [heq]
            exact Nat.add_le_add_right (Nat.le_of_lt htT) settleDelay
          · have hge : T + settleDelay ≤ t := by
              rcases hinv with hsaw | hall
              · exfalso
                rw [strategy3Fires_false_of_not_saw st _ _ t hsaw] at hf
                exact Bool.noConfusion hf
              · exact hall t (List.mem_cons_self t ts)
            exact le_trans hge hle
        · exact ih st2 hpw2 (fun x hx => hgt x (List.mem_cons_of_mem t hx))
            (fun x hx h2 => hnl x (List.mem_cons_of_mem t hx) h2) hnext o ho
      | none =>
        simp only at ho
        exact ih st2 hpw2 (fun x hx => hgt x (List.mem_cons_of_mem t hx))
          (fun x hx h2 => hnl x (List.mem_cons_of_mem t hx) h2) hnext o ho

theorem earliestOffer_head (o : Nat × MonitorResult) :
    ∀ rest, (∀ o2 ∈ rest, ¬ o2.1 < o.1) → earliestOffer o rest = o := by
  intro rest
  induction rest with
  | nil => intro _; rfl
  | cons o2 os ih =>
    intro h
    have hnot := h o2 (List.mem_cons_self o2 os)
    rw [earliestOffer, List.foldl_cons, if_neg hnot]
    exact ih (fun x hx => h x (List.mem_cons_of_mem o2 hx))

/-- C6: if the observed clip count first exceeds the baseline at a check at
time `T`, no earlier check saw a clip or audio increase, no loading indicator
shows before `T + settleDelay` (so no other strategy settles the promise
earlier), and the hard timeout lies beyond `T + settleDelay`, then the
monitor resolves exactly at `T + settleDelay` with `completed = true` and
`timedOut = false`. -/
theorem monitor_clip_increase_resolves (env : MonitorEnv) (ts : List Nat)
    (timeoutMs T : Nat)
    (hpw : List.Pairwise (· < ·) ts)
    (hmem : T ∈ ts)
    (hT : env.clipCount 0 < env.clipCount T)
    (hbefore : ∀ t ∈ ts, t < T →
      env.clipCount t ≤ env.clipCount 0 ∧ env.audioCount t ≤ env.audioCount 0)
    (hnoload : ∀ t ∈ ts, t < T + settleDelay → env.loading t = false)
    (htimeout : T + settleDelay < timeoutMs) :
    (monitorGeneration env ts timeoutMs).1 = T + settleDelay ∧
    (monitorGeneration env ts timeoutMs).2.completed = true ∧
    (monitorGeneration env ts timeoutMs).2.timedOut = false := by
  obtain ⟨l1, l2, rfl⟩ := List.append_of_mem hmem
  have hsplit := List.pairwise_append.mp hpw
  have hpwT := hsplit.2.1
  have hcross := hsplit.2.2
  have hl1T : ∀ t ∈ l1, t < T := fun t ht => hcross t ht T (List.mem_cons_self T l2)
  have hl2T : ∀ t ∈ l2, T < t := (List.pairwise_cons.mp hpwT).1
  have hpwl2 := (List.pairwise_cons.mp hpwT).2
  have hTsd : T < T + settleDelay := Nat.lt_add_of_pos_right (by decide)
  have hloadT : env.loading T = false :=
    hnoload T (List.mem_append.mpr (Or.inr (List.mem_cons_self T l2))) hTsd
  have hquiet := collectOffers_quiet env (env.clipCount 0) (env.audioCount 0) (env.songIds 0)
    l1 { sawLoading := false, loadingDisappearedAt := 0 } rfl
    (fun t ht => by
      have hmt : t ∈ l1 ++ T :: l2 := List.mem_append.mpr (Or.inl ht)
      have h1 := hbefore t hmt (hl1T t ht)
      exact ⟨h1.1, h1.2, hnoload t hmt (Nat.lt_trans (hl1T t ht) hTsd)⟩)
  have hcT : checkCompletion env (env.clipCount 0) (env.audioCount 0) (env.songIds 0) T
      { sawLoading := false, loadingDisappearedAt := 0 } =
      ({ sawLoading := false, loadingDisappearedAt := 0 },
        some (T + settleDelay,
          { completed := true, timedOut := false,
            songUrls := newSongUrls env (env.songIds 0) (T + settleDelay) })) := by
    simp only [checkCompletion, hloadT]
    rw [if_pos hT]
    simp [updateLda]
  have hoffers : collectOffers env (env.clipCount 0) (env.audioCount 0) (env.songIds 0)
      { sawLoading := false, loadingDisappearedAt := 0 } (l1 ++ T :: l2) =
      (T + settleDelay,
        { completed := true, timedOut := false,
          songUrls := newSongUrls env (env.songIds 0) (T + settleDelay) }) ::
        collectOffers env (env.clipCount 0) (env.audioCount 0) (env.songIds 0)
          { sawLoading := false, loadingDisappearedAt := 0 } l2 := by
    rw [collectOffers_append, hquiet.1, hquiet.2, List.nil_append, collectOffers, hcT]
  have htail : ∀ o ∈ collectOffers env (env.clipCount 0) (env.audioCount 0) (env.songIds 0)
      { sawLoading := false, loadingDisappearedAt := 0 } l2, T + settleDelay ≤ o.1 :=
    collectOffers_lower_bound env (env.clipCount 0) (env.audioCount 0) (env.songIds 0) T
      l2 { sawLoading := false, loadingDisappearedAt := 0 } hpwl2 hl2T
      (fun t ht h2 => hnoload t (List.mem_append.mpr (Or.inr (List.mem_cons_of_mem T ht))) h2)
      (Or.inl rfl)
  have hmg : monitorGeneration env (l1 ++ T :: l2) timeoutMs =
      earliestOffer (T + settleDelay,
        { completed := true, timedOut := false,
          songUrls := newSongUrls env (env.songIds 0) (T + settleDelay) })
        (collectOffers env (env.clipCount 0) (env.audioCount 0) (env.songIds 0)
          { sawLoading := false, loadingDisappearedAt := 0 } l2 ++
          [(timeoutMs, timeoutResult)]) := by
    simp only [monitorGeneration]
    rw [hoffers]
  have hwin : earliestOffer (T + settleDelay,
      { completed := true, timedOut := false,
        songUrls := newSongUrls env (env.songIds 0) (T + settleDelay) })
      (collectOffers env (env.clipCount 0) (env.audioCount 0) (env.songIds 0)
        { sawLoading := false, loadingDisappearedAt := 0 } l2 ++
        [(timeoutMs, timeoutResult)]) =
      (T + settleDelay,
        { completed := true, timedOut := false,
          songUrls := newSongUrls env (env.songIds 0) (T + settleDelay) }) := by
    apply earliestOffer_head
    intro o2 ho2
    rcases List.mem_append.mp ho2 with h | h
    · exact Nat.not_lt.mpr (htail o2 h)
    · rcases List.mem_singleton.mp h with rfl
      exact Nat.not_lt.mpr (Nat.le_of_lt htimeout)
  rw [hmg, hwin]
  exact ⟨rfl, rfl, rfl⟩

/-- A concrete monitor environment: one clip appears at 3000 ms and its song
link enters the feed at 5000 ms; no audio elements and no spinners. -/
def wEnv : MonitorEnv :=
  { clipCount := fun t => if 3000 ≤ t then 1 else 0
    audioCount := fun _ => 0
    loading := fun _ => false
    songIds := fun t => if 5000 ≤ t then ["abc"] else [] }

/-- Witness for C6: with checks at 0, 3000 and 6000 ms and the default 5 min
timeout, the clip-count increase observed at T = 3000 resolves the monitor at
5000 ms (= T + settle delay) with `completed` and not `timedOut`, carrying
the newly appeared song url. -/
theorem monitor_clip_increase_witness :
    (monitorGeneration wEnv [0, 3000, 6000] 300000).1 = 3000 + settleDelay ∧
    (monitorGeneration wEnv [0, 3000, 6000] 300000).2.completed = true ∧
    (monitorGeneration wEnv [0, 3000, 6000] 300000).2.timedOut = false := by
  have h := monitor_clip_increase_resolves wEnv [0, 3000, 6000] 300000 3000
    (by decide) (by decide) (by decide) (by decide) (by decide) (by decide)
  exact ⟨h.1, h.2.1, h.2.2⟩

/-! ## API polling path (`executeJob` / `pollForCompletion` in the API-based
automation module) -/

/-- `const waitForComplete = settings.downloadFormat === "wav"`: for WAV
downloads polling must wait for the fully finished state; a buffered
"streaming" state is enough only for MP3. -/
def waitForCompleteOf (format : DownloadFormat) : Bool := format == .wav

/-- `clip.audio_url || null`: a missing or empty url becomes null. -/
def orNull (u : Option String) : Option String :=
  match u with
  | some s => if s = "" then none else some s
  | none => none

/-- One observed response of the feed API for the polled song id. -/
inductive PollResp where
  | clipResp (status : String) (audioUrl : Option String)
  | noClip
  | httpError (status : Nat)
  | fetchError
deriving DecidableEq, Repr

/-- The body of one poll iteration inside the `try` block: `.error` is a
thrown exception, `.ok (some r)` a `return r`, `.ok none` falls through to
the 5-second delay and the next iteration. A clip in status `complete`
returns its url; `streaming` returns only when not waiting for completion;
status `error` throws. -/
def pollIterBody (waitForComplete : Bool) (r : PollResp) :
    Except String (Option (Option String)) :=
  match r with
  | .clipResp st url =>
    if st == "complete" then .ok (some (orNull url))
    else if !waitForComplete && (st == "streaming") then .ok (some (orNull url))
    else if st == "error" then .error "Song status is \x27error\x27"
    else .ok none
  | .noClip => .ok none
  | .httpError _ => .ok none
  | .fetchError => .error "fetch failed"

/-- One poll iteration with its `catch (e) \x7b console.log(...) \x7d`: any
exception thrown inside the iteration (the fetch failure, but also the
status-error throw above) is logged and swallowed, and polling continues. -/
def pollIter (waitForComplete : Bool) (r : PollResp) : Option (Option String) :=
  match pollIterBody waitForComplete r with
  | .error _ => none
  | .ok x => x

/-- `pollForCompletion` over the finite sequence of responses observed
before `maxWait` (5 min) elapses; exhausting the sequence is the timeout
throw. -/
def pollForCompletion (waitForComplete : Bool) :
    List PollResp → Except String (Option String)
  | [] => .error "Timeout waiting for song status"
  | r :: rest =>
    match pollIter waitForComplete r with
    | some url => .ok url
    | none => pollForCompletion waitForComplete rest

/-- C9 counterexample: a clip status of `error` does not raise an error out
of the polling loop — the throw is caught by the iteration's own catch block
and polling continues, so after an error-status response a later `streaming`
response still succeeds (format mp3). -/
theorem pollError_swallowed_counterexample :
    pollForCompletion (waitForCompleteOf .mp3)
      [.clipResp "error" none, .clipResp "streaming" (some "https://a.mp3")] =
      .ok (some "https://a.mp3") ∧
    PollResp.clipResp "error" none ∈
      ([.clipResp "error" none, .clipResp "streaming" (some "https://a.mp3")] :
        List PollResp) :=
  ⟨rfl, List.mem_cons_self _ _⟩

theorem pollIter_wav_some {r : PollResp} {v : Option String}
    (h : pollIter (waitForCompleteOf .wav) r = some v) :
    ∃ url, r = .clipResp "complete" url ∧ v = orNull url := by
  cases r with
  | clipResp st url =>
    by_cases hc : (st == "complete") = true
    · have hst : st = "complete" := by simpa using hc
      subst hst
      refine ⟨url, rfl, ?_⟩
      have hred : pollIter (waitForCompleteOf .wav) (.clipResp "complete" url) =
          some (orNull url) := rfl
      rw [hred] at h
      exact (Option.some.inj h).symm
    · have hcb : (st == "complete") = false := by simpa using hc
      by_cases he : (st == "error") = true
      · simp [pollIter, pollIterBody, hcb, he, waitForCompleteOf] at h
      · have heb : (st == "error") = false := by simpa using he
        simp [pollIter, pollIterBody, hcb, heb, waitForCompleteOf] at h
  | noClip => simp [pollIter, pollIterBody] at h
  | httpError code => simp [pollIter, pollIterBody] at h
  | fetchError => simp [pollIter, pollIterBody] at h

/-- C9 (amended): (1) a `streaming` clip is accepted as ready (its url
returned by the iteration) exactly when the requested format is mp3; (2)
with format wav, polling returns a url only from a `complete` response; (3)
a clip status of `error` throws inside the iteration, but the throw is
caught by the iteration's catch-all and swallowed, so the iteration merely
continues (it never returns that clip's url, and polling fails only through
the overall timeout). -/
theorem pollForCompletion_spec :
    (∀ (format : DownloadFormat) (url : Option String),
      pollIter (waitForCompleteOf format) (.clipResp "streaming" url) =
        (if format = .mp3 then some (orNull url) else none)) ∧
    (∀ (trace : List PollResp) (u : Option String),
      pollForCompletion (waitForCompleteOf .wav) trace = .ok u →
        ∃ url, PollResp.clipResp "complete" url ∈ trace ∧ u = orNull url) ∧
    (∀ (w : Bool) (url : Option String),
      pollIterBody w (.clipResp "error" url) = .error "Song status is \x27error\x27" ∧
      pollIter w (.clipResp "error" url) = none) := by
  refine ⟨?_, ?_, ?_⟩
  · intro format url
    cases format <;> rfl
  · intro trace
    induction trace with
    | nil =>
      intro u h
      exact absurd h (by simp [pollForCompletion])
    | cons r rest ih =>
      intro u h
      rw [pollForCompletion] at h
      cases hit : pollIter (waitForCompleteOf .wav) r with
      | none =>
        rw [hit] at h
        obtain ⟨url, hmem, hu⟩ := ih u h
        exact ⟨url, List.mem_cons_of_mem r hmem, hu⟩
      | some v =>
        rw [hit] at h
        simp only [Except.ok.injEq] at h
        subst h
        obtain ⟨url, rfl, hvu⟩ := pollIter_wav_some hit
        exact ⟨url, List.mem_cons_self _ _, hvu⟩
  · intro w url
    cases w <;> exact ⟨rfl, rfl⟩

/-- Witness for the amended C9: a streaming clip is returned for mp3; a wav
poll that succeeded did so on a `complete` response; an error-status
iteration throws and is swallowed. -/
theorem pollForCompletion_spec_witness :
    pollIter (waitForCompleteOf .mp3) (.clipResp "streaming" (some "u")) = some (some "u") ∧
    (∃ url, PollResp.clipResp "complete" url ∈
        ([.clipResp "submitted" none, .clipResp "complete" (some "w")] : List PollResp) ∧
      some "w" = orNull url) ∧
    pollIter (waitForCompleteOf .wav) (.clipResp "error" none) = none := by
  refine ⟨?_, ?_, (pollForCompletion_spec.2.2 (waitForCompleteOf .wav) none).2⟩
  · rw [pollForCompletion_spec.1 .mp3 (some "u")]
    rfl
  · exact pollForCompletion_spec.2.1
      [.clipResp "submitted" none, .clipResp "complete" (some "w")] (some "w") rfl

/-! ## Download filename (`downloadSongViaAPI`) -/

/-- The characters removed by the sanitizer regex `/[<>:"/\\|?*]/g`. -/
def reservedChars : List Char := ['<', '>', ':', '"', '/', '\\', '|', '?', '*']

/-- One character of `title.replace(/[<>:"/\\|?*]/g, "_")`. -/
def sanitizeChar (c : Char) : Char := if c ∈ reservedChars then '_' else c

/-- `title.replace(/[<>:"/\\|?*]/g, "_").trim()` on the title characters. -/
def sanitizedTitle (title : List Char) : List Char :=
  jsTrimChars (title.map sanitizeChar)

/-- The extension: `format === "wav" ? ".wav" : ".mp3"`, downgraded to
`.mp3` when a wav url could not be found (dead in practice: the wav branch
always falls back to a CDN url). -/
def extFor (format : DownloadFormat) (downloadUrl : List Char) : List Char :=
  let e := if format = .wav then ".wav".data else ".mp3".data
  if format = .wav ∧ downloadUrl = [] then ".mp3".data else e

/-- The filename: the sanitized, trimmed title plus extension when the title
is present (JS-truthy, so nonempty) and sanitizes to something nonempty;
otherwise `suno-<songId><ext>`. -/
def buildFilename (songId : List Char) (title : Option (List Char)) (ext : List Char) :
    List Char :=
  match title with
  | none => "suno-".data ++ songId ++ ext
  | some t =>
    if t = [] then "suno-".data ++ songId ++ ext
    else if (sanitizedTitle t).length > 0 then sanitizedTitle t ++ ext
    else "suno-".data ++ songId ++ ext

/-- The filename handed to the download sink, or the error thrown when no
download url was found (`throw new Error("No download URL found")` runs
before the sink message is sent). -/
def downloadFilename (songId : List Char) (title : Option (List Char))
    (format : DownloadFormat) (downloadUrl : List Char) : Except String (List Char) :=
  let filename := buildFilename songId title (extFor format downloadUrl)
  if downloadUrl = [] then .error "No download URL found" else .ok filename

theorem mem_of_mem_jsTrimChars {c : Char} {l : List Char} (h : c ∈ jsTrimChars l) :
    c ∈ l := by
  rw [jsTrimChars, List.mem_reverse] at h
  have h1 := (List.dropWhile_sublist _).subset h
  rw [List.mem_reverse] at h1
  exact (List.dropWhile_sublist _).subset h1

theorem sanitizeChar_not_reserved (c : Char) : sanitizeChar c ∉ reservedChars := by
  rw [sanitizeChar]
  split
  case isTrue h => decide
  case isFalse h => exact h

theorem sanitizedTitle_not_reserved {c : Char} {t : List Char}
    (h : c ∈ sanitizedTitle t) : c ∉ reservedChars := by
  rw [sanitizedTitle] at h
  rcases List.mem_map.mp (mem_of_mem_jsTrimChars h) with ⟨c2, _, rfl⟩
  exact sanitizeChar_not_reserved c2

theorem buildFilename_fallback (songId : List Char) (title : Option (List Char))
    (ext : List Char)
    (hfb : title = none ∨ title = some [] ∨ ∃ t, title = some t ∧ sanitizedTitle t = []) :
    buildFilename songId title ext = "suno-".data ++ songId ++ ext := by
  rcases hfb with rfl | rfl | ⟨t, rfl, hs⟩
  · rfl
  · rfl
  · rw [buildFilename]
    by_cases h0 : t = []
    · rw [if_pos h0]
    · rw [if_neg h0, if_neg (by rw [hs]; simp)]

theorem buildFilename_title (songId : List Char) (t : List Char) (ext : List Char)
    (h0 : t ≠ []) (hs : sanitizedTitle t ≠ []) :
    buildFilename songId (some t) ext = sanitizedTitle t ++ ext := by
  rw [buildFilename, if_neg h0,
    if_pos (by cases hg : sanitizedTitle t with
      | nil => exact absurd hg hs
      | cons a l => simp [hg])]

/-- C10: when `downloadSongViaAPI` reaches the download sink (a download url
exists), the filename is never empty, contains none of the reserved
characters `< > : " / \\ | ? *` (provided the song id does not), always ends
in the requested format extension, is `suno-<songId><ext>` whenever the
title is absent, empty, or sanitizes/trims to the empty string, and is
`<sanitized title><ext>` otherwise. -/
theorem downloadFilename_spec (songId : List Char) (title : Option (List Char))
    (format : DownloadFormat) (downloadUrl : List Char) (fn : List Char)
    (hid : ∀ c ∈ songId, c ∉ reservedChars)
    (h : downloadFilename songId title format downloadUrl = .ok fn) :
    fn ≠ [] ∧
    (∀ c ∈ fn, c ∉ reservedChars) ∧
    (∃ stem, fn = stem ++ (if format = .wav then ".wav".data else ".mp3".data)) ∧
    ((title = none ∨ title = some [] ∨ ∃ t, title = some t ∧ sanitizedTitle t = []) →
      fn = "suno-".data ++ songId ++ (if format = .wav then ".wav".data else ".mp3".data)) ∧
    (∀ t, title = some t → t ≠ [] → sanitizedTitle t ≠ [] →
      fn = sanitizedTitle t ++ (if format = .wav then ".wav".data else ".mp3".data)) := by
  rw [downloadFilename] at h
  split at h
  · exact Except.noConfusion h
  case isFalse hurl =>
    simp only [Except.ok.injEq] at h
    have hext : extFor format downloadUrl =
        (if format = .wav then ".wav".data else ".mp3".data) := by
      rw [extFor, if_neg (fun hand => hurl hand.2)]
    rw [hext] at h
    subst h
    have hextne : (if format = .wav then ".wav".data else ".mp3".data) ≠ [] := by
      cases format <;> simp
    have hextok : ∀ c ∈ (if format = .wav then ".wav".data else ".mp3".data),
        c ∉ reservedChars := by
      cases format <;> decide
    have hcases : buildFilename songId title
          (if format = .wav then ".wav".data else ".mp3".data) =
        "suno-".data ++ songId ++ (if format = .wav then ".wav".data else ".mp3".data) ∨
        ∃ t, title = some t ∧
          buildFilename songId title (if format = .wav then ".wav".data else ".mp3".data) =
            sanitizedTitle t ++ (if format = .wav then ".wav".data else ".mp3".data) := by
      cases title with
      | none => left; rfl
      | some t =>
        by_cases h0 : t = []
        · left
          exact buildFilename_fallback songId (some t) _ (Or.inr (Or.inl (by rw [h0])))
        · by_cases hs : sanitizedTitle t = []
          · left
            exact buildFilename_fallback songId (some t) _ (Or.inr (Or.inr ⟨t, rfl, hs⟩))
          · right
            exact ⟨t, rfl, buildFilename_title songId t _ h0 hs⟩
    have hsuno : ∀ c ∈ ("suno-".data : List Char), c ∉ reservedChars := by decide
    refine ⟨?_, ?_, ?_, ?_, ?_⟩
    · rcases hcases with heq | ⟨t, _, heq⟩ <;> rw [heq] <;> intro hnil
      · rcases List.append_eq_nil.mp hnil with ⟨_, h2⟩
        exact hextne h2
      · rcases List.append_eq_nil.mp hnil with ⟨_, h2⟩
        exact hextne h2
    · intro c hc
      rcases hcases with heq | ⟨t, _, heq⟩ <;> rw [heq] at hc
      · rcases List.mem_append.mp hc with hc | hc
        · rcases List.mem_append.mp hc with hc | hc
          · exact hsuno c hc
          · exact hid c hc
        · exact hextok c hc
      · rcases List.mem_append.mp hc with hc | hc
        · exact sanitizedTitle_not_reserved hc
        · exact hextok c hc
    · rcases hcases with heq | ⟨t, _, heq⟩ <;> rw [heq]
      · exact ⟨"suno-".data ++ songId, by rw [List.append_assoc]⟩
      · exact ⟨sanitizedTitle t, rfl⟩
    · intro hfb
      exact buildFilename_fallback songId title _ hfb
    · intro t ht h0 hs
      rw [ht]
      exact buildFilename_title songId t _ h0 hs

/-- Witness for C10: a title containing reserved characters is sanitized to
underscores, keeps the mp3 extension, and the resulting filename is nonempty
and clean. -/
theorem downloadFilename_spec_witness :
    downloadFilename "abc123".data (some "My <Great> Song?".data) .mp3 "http".data =
      .ok "My _Great_ Song_.mp3".data ∧
    "My _Great_ Song_.mp3".data ≠ [] ∧
    (∀ c ∈ "My _Great_ Song_.mp3".data, c ∉ reservedChars) := by
  have hok : downloadFilename "abc123".data (some "My <Great> Song?".data) .mp3 "http".data =
      .ok "My _Great_ Song_.mp3".data := rfl
  have h := downloadFilename_spec "abc123".data (some "My <Great> Song?".data) .mp3
    "http".data "My _Great_ Song_.mp3".data (by decide) hok
  exact ⟨hok, h.1, h.2.1⟩

end SunoBatch
